import Mathlib

/-!
# gort: dynamic function lookup and invocation driven by debug information

A shallow embedding of `gort_functions.go` and a verification of its lookup,
signature-reconstruction and call-validation logic.

Conventions of the embedding

* `uint64` addresses and DWARF offsets are natural numbers; the code performs no
  arithmetic on them, only comparison with `0` and equality.
* A Go `(value, error)` result is an `Except Error value`; where a library call of the
  operation can panic, the result is a `Result`, with the panic as a third outcome.
* Slices whose nil-ness the code can observe are `Slice` values (`Slice.nil` is the
  nil slice, `append` always yields a non-nil slice).
* Operations of libraries outside the repository (`reflect`, the DWARF resolver
  helpers, the native call) are parameters, collected in `Collab`; what they compute is
  not constrained.  The two `reflect` operations that panic on the inputs the code
  hands them, `reflect.FuncOf` and `reflect.Value.Call`, are modelled with their panics
  (`FuncOf`, `reflectCall`).
* Effects a caller can observe (the visitor calls of `ForeachFunc`, the native call of
  `CallFunc`) are made explicit: the visitor is a state transformer, and `CallFunc`
  returns the list of native calls it performed next to its result.
-/

set_option autoImplicit false

namespace Gort

/-! ## Errors -/

/-- Error values returned by the package.  The `fmt.Errorf` values keep the arguments
of their format string. -/
inductive Error where
  /-- The package sentinel `ErrNotFound`. -/
  | ErrNotFound
  /-- The package sentinel `ErrNotSupport`. -/
  | ErrNotSupport
  /-- An error value produced by `d.check()`. -/
  | checkFailed (msg : String)
  /-- The value `fmt.Errorf("get function arg types not found %s", f.Name)`. -/
  | argTypesNotFound (fname : String)
  /-- The value `fmt.Errorf("get function arg types name err %s:%s", f.Name, name)`. -/
  | argTypesNameErr (fname name : String)
  /-- The value `fmt.Errorf("get function arg types reader err %s:%s", f.Name, err.Error())`. -/
  | argTypesReaderErr (fname msg : String)
  /-- The value `fmt.Errorf("get function arg types type err %s:%s", f.Name, err.Error())`. -/
  | argTypesTypeErr (fname msg : String)
  /-- The value `fmt.Errorf("len mismatch %d", i)`. -/
  | lenMismatch (i : Nat)
  /-- The value `fmt.Errorf("type mismatch %d:%s", i, inName)`. -/
  | typeMismatch (i : Nat) (inName : String)
  deriving DecidableEq, Repr

/-! ## Go slices -/

/-- A Go slice value: either the nil slice or a non-nil slice with its elements. -/
inductive Slice (α : Type) where
  | nil
  | mk (elems : List α)
  deriving DecidableEq, Repr

namespace Slice

variable {α : Type}

/-- The elements of a slice; the nil slice has none. -/
def toList : Slice α → List α
  | .nil => []
  | .mk l => l

/-- Go's `len`. -/
def len (s : Slice α) : Nat := s.toList.length

/-- Go's `append(s, x)`: the result is never nil. -/
def append (s : Slice α) (x : α) : Slice α := .mk (s.toList ++ [x])

/-- Go's `s == nil`. -/
def isNil : Slice α → Bool
  | .nil => true
  | .mk _ => false

end Slice

/-! ## Debug records (`debug/dwarf`) -/

/-- The value of a DWARF attribute, as far as the code inspects its dynamic type. -/
inductive AttrVal where
  | str (s : String)
  | bool (b : Bool)
  | other (n : Nat)
  deriving DecidableEq, Repr

/-- One attribute/value pair of a record (`dwarf.Field`). -/
structure Field where
  Attr : Nat
  Val : AttrVal
  deriving DecidableEq, Repr

/-- A debug record (`dwarf.Entry`). -/
structure Entry where
  Offset : Nat
  Tag : Nat
  Field : List Field
  deriving DecidableEq, Repr

/-- DWARF constant `DW_TAG_formal_parameter`. -/
def TagFormalParameter : Nat := 0x05
/-- DWARF constant `DW_TAG_subprogram`. -/
def TagSubprogram : Nat := 0x2E
/-- DWARF constant `DW_AT_name`. -/
def AttrName : Nat := 0x03
/-- DWARF constant `DW_AT_variable_parameter`. -/
def AttrVarParam : Nat := 0x4B
/-- DWARF constant `DW_AT_type`. -/
def AttrType : Nat := 0x49

/-- The method `(*dwarf.Entry).Val`: the value of the first field with this attribute,
or nil. -/
def Entry.Val (e : Entry) (a : Nat) : Option AttrVal :=
  (e.Field.find? (fun fl => fl.Attr == a)).map (fun fl => fl.Val)

/-- What one `reader.Next()` yields when a record is still to be read: the record
or a decoding error. -/
abbrev ReadResult := Except String Entry

/-- The image of a binary as the code reaches it: the `dwarf` field read through
reflection (`none` when the struct has no such field) and the debug section, the
results of decoding it record by record, each with its byte offset. -/
structure Image where
  dwarf : Option Nat
  records : List (Nat × ReadResult)

/-- A DWARF reader positioned in the section: the records still to be read. -/
abbrev Reader := List (Nat × ReadResult)

/-- The method `image.DwarfReader()`. -/
def Image.DwarfReader (im : Image) : Reader := im.records

/-- The method `reader.Seek(off)` on a fresh reader of `im`: position it at the record
at byte offset `off`. -/
def Image.Seek (im : Image) (off : Nat) : Reader :=
  im.DwarfReader.dropWhile (fun rec => rec.1 < off)

/-- The method `reader.Next()`: `(entry, err)` and the advanced reader; at the end of
the section it yields `(nil, nil)`. -/
def Reader.Next : Reader → Except String (Option Entry) × Reader
  | [] => (.ok none, [])
  | (_, .error msg) :: rest => (.error msg, rest)
  | (_, .ok e) :: rest => (.ok (some e), rest)

/-! ## Symbols (`proc.Function`, `proc.BinaryInfo`) -/

/-- The compile unit of a function; `image` is `none` when reflection finds no
such field. -/
structure CompileUnit where
  image : Option Image

/-- A function symbol (`proc.Function`).  `offset` and `cu` are the private fields
the code reads through reflection; `none` when the struct has no such field. -/
structure Function where
  Name : String
  Entry : Nat
  offset : Option Nat
  cu : Option CompileUnit

/-- The symbol table (`proc.BinaryInfo`). -/
structure BinaryInfo where
  Functions : List Function

/-- The receiver `*DwarfRT`.  `check` is the result of the method `d.check()`, whose
body is not part of the file: `none` when the provider is usable, else its error. -/
structure DwarfRT where
  check : Option Error
  bi : BinaryInfo

/-! ## Symbol index -/

/-- The loop of `findFunc`, with `k = i + 1` for the loop variable `i`, which runs
from `len(Functions) - 1` down to `0`. -/
def findFunc.loop (Functions : List Function) (name : String) : Nat → Except Error Function
  | 0 => .error .ErrNotFound
  | i + 1 =>
    match Functions[i]? with
    | none => findFunc.loop Functions name i
    | some fn =>
      if fn.Name = name then
        if fn.Entry ≠ 0 then .ok fn else .error .ErrNotFound
      else findFunc.loop Functions name i

/-- The method `findFunc`. -/
def DwarfRT.findFunc (d : DwarfRT) (name : String) : Except Error Function :=
  findFunc.loop d.bi.Functions name d.bi.Functions.length

/-- The method `FindFuncEntry`. -/
def DwarfRT.FindFuncEntry (d : DwarfRT) (name : String) : Except Error Function :=
  match d.check with
  | some err => .error err
  | none =>
    match d.findFunc name with
    | .error err => .error err
    | .ok f => .ok f

/-- The method `FindFuncPc`. -/
def DwarfRT.FindFuncPc (d : DwarfRT) (name : String) : Except Error Nat :=
  match d.check with
  | some err => .error err
  | none =>
    match d.findFunc name with
    | .error err => .error err
    | .ok f => .ok f.Entry

/-- The method `ForeachFunc`.  The visitor `f` acts on the caller's state `σ`; the
result is the returned error (if any) and the state after the traversal. -/
def DwarfRT.ForeachFunc {σ : Type} (d : DwarfRT) (f : String → Nat → σ → σ) (s : σ) :
    Option Error × σ :=
  match d.check with
  | some err => (some err, s)
  | none =>
    (none, d.bi.Functions.foldl
      (fun st function => if function.Entry ≠ 0 then f function.Name function.Entry st else st) s)

/-! ## Collaborators -/

/-- A function type built by `reflect.FuncOf`. -/
structure FuncType (T : Type) where
  In : List T
  Out : List T
  Variadic : Bool

/-- A function value bound to a code address. -/
structure FuncValue (T : Type) where
  typ : FuncType T
  pc : Nat

/-- Modelled from the spec: `CreateFuncForCodePtr`, the dynamic trampoline, whose body is
not part of the file.  It binds the entry address in place to the type shape: the
callable is the pair of both. -/
def CreateFuncForCodePtr {T : Type} (ftyp : FuncType T) (pc : Nat) : FuncValue T :=
  ⟨ftyp, pc⟩

/-- The operations the code calls and does not define, over runtime types `T`
(`reflect.Type`, non-nil), runtime values `V` (`reflect.Value`) and debug-level type
descriptions `D` (`dwarf.Type`). -/
structure Collab (T V D : Type) where
  /-- The helper `entryType(dwarfData, child)`. -/
  entryType : Nat → Entry → Except String D
  /-- The helper `dwarfTypeName(dtyp)`. -/
  dwarfTypeName : D → String
  /-- The method `d.FindType(dname)`. -/
  FindType : String → Except String T
  /-- The method `arg.Type()`. -/
  TypeOf : V → T
  /-- The method `t.AssignableTo(u)`. -/
  AssignableTo : T → T → Bool
  /-- The method `t.Elem()`. -/
  Elem : T → T
  /-- The test `t.Kind() == reflect.Slice`. -/
  IsSlice : T → Bool
  /-- The native call of the target at the bound address, which `newFunc.Call(args)`
  enters once the arguments fit the function type. -/
  Call : FuncValue T → List V → List V

/-- The panics of `reflect` the code can run into. -/
inductive Panic where
  /-- The panic `reflect.FuncOf: last arg of variadic func must be slice`. -/
  | funcOfVariadic
  /-- The panic `reflect: Call with too few input arguments`. -/
  | callTooFew
  /-- The panic `reflect: Call with too many input arguments`. -/
  | callTooMany
  /-- The panic `reflect: Call using ... as type ...`. -/
  | callUsing
  deriving DecidableEq, Repr

/-- The outcome of an operation that returns `(value, error)` or panics in a library
call. -/
inductive Result (α : Type) where
  /-- The operation returns `(v, nil)`. -/
  | ok (v : α)
  /-- The operation returns the error `err`. -/
  | error (err : Error)
  /-- The operation does not return: a library call panics. -/
  | panic (p : Panic)
  deriving DecidableEq, Repr

/-- The function `reflect.FuncOf(in, out, variadic)`: it panics when `variadic` is true and
there is no input or the last input is not a slice. -/
def FuncOf {T V D : Type} (C : Collab T V D) (inTyps outTyps : Slice T) (variadic : Bool) :
    Except Panic (FuncType T) :=
  if variadic then
    if inTyps.len = 0 then .error .funcOfVariadic
    else
      match inTyps.toList[inTyps.len - 1]? with
      | some last =>
        if C.IsSlice last then .ok ⟨inTyps.toList, outTyps.toList, variadic⟩
        else .error .funcOfVariadic
      | none => .error .funcOfVariadic
  else .ok ⟨inTyps.toList, outTyps.toList, variadic⟩

/-- The check of `reflect.Value.Call` on its leading arguments: each is assignable to
the input type at its index. -/
def assignableAll {T V D : Type} (C : Collab T V D) : List V → List T → Bool
  | x :: xs, t :: ts => C.AssignableTo (C.TypeOf x) t && assignableAll C xs ts
  | _, _ => true

/-- The method `newFunc.Call(args)` of `reflect.Value`.  With `n` the number of inputs, less
one for a variadic type, it panics when fewer than `n` arguments are given, when the
type is not variadic and more than `n` are given, when one of the first `n` arguments is
not assignable to its input type, and when the type is variadic and a further argument
is not assignable to the element type of the last input; otherwise it enters the
target. -/
def reflectCall {T V D : Type} (C : Collab T V D) (fn : FuncValue T) (args : List V) :
    Except Panic (List V) :=
  let n := if fn.typ.Variadic then fn.typ.In.length - 1 else fn.typ.In.length
  if args.length < n then .error .callTooFew
  else if !fn.typ.Variadic && n < args.length then .error .callTooMany
  else if !assignableAll C (args.take n) (fn.typ.In.take n) then .error .callUsing
  else if fn.typ.Variadic &&
      !(args.drop n).all (fun x =>
        match fn.typ.In[n]? with
        | some t => C.AssignableTo (C.TypeOf x) (C.Elem t)
        | none => false) then .error .callUsing
  else .ok (C.Call fn args)

/-! ## Signature reconstruction -/

/-- The four lists `getFunctionArgTypes` returns on success. -/
structure ArgTypes (T : Type) where
  inTyps : Slice T
  outTyps : Slice T
  inNames : Slice String
  outNames : Slice String

/-- The value of `isret, _ := child.Val(dwarf.AttrVarParam).(bool)`. -/
def isret (child : Entry) : Bool :=
  match child.Val AttrVarParam with
  | some (.bool b) => b
  | _ => false

/-- The parameter loop of `getFunctionArgTypes`: `reader` is the reader before the
`reader.Next()` of the iteration, `acc` the four lists built so far. -/
def getFunctionArgTypes.loop {T V D : Type} (C : Collab T V D) (dwarfData : Nat)
    (fname : String) : Reader → ArgTypes T → Except Error (ArgTypes T)
  | [], acc => .ok acc
  | (_, .error msg) :: _, _ => .error (.argTypesReaderErr fname msg)
  | (_, .ok child) :: reader, acc =>
    if child.Tag = 0 then .ok acc
    else if child.Tag ≠ TagFormalParameter then .ok acc
    else
      match C.entryType dwarfData child with
      | .error msg => .error (.argTypesTypeErr fname msg)
      | .ok dtyp =>
        let dname := C.dwarfTypeName dtyp
        match C.FindType dname with
        | .error msg => .error (.argTypesTypeErr fname msg)
        | .ok rtyp =>
          if isret child then
            getFunctionArgTypes.loop C dwarfData fname reader
              { acc with outTyps := acc.outTyps.append rtyp, outNames := acc.outNames.append dname }
          else
            getFunctionArgTypes.loop C dwarfData fname reader
              { acc with inTyps := acc.inTyps.append rtyp, inNames := acc.inNames.append dname }

/-- The method `getFunctionArgTypes`. -/
def DwarfRT.getFunctionArgTypes {T V D : Type} (C : Collab T V D) (_d : DwarfRT)
    (f : Function) : Except Error (ArgTypes T) :=
  match f.offset, f.cu with
  | some rOffset, some rCU =>
    match rCU.image with
    | none => .error .ErrNotSupport
    | some image =>
      match image.dwarf with
      | none => .error .ErrNotSupport
      | some dwarfData =>
        match Reader.Next (image.Seek rOffset) with
        | (.ok (some entry), reader) =>
          if entry.Tag ≠ TagSubprogram then .error (.argTypesNotFound f.Name)
          else
            match entry.Val AttrName with
            | some (.str name) =>
              if f.Name ≠ name then .error (.argTypesNameErr f.Name name)
              else getFunctionArgTypes.loop C dwarfData f.Name reader ⟨.nil, .nil, .nil, .nil⟩
            | _ => .error (.argTypesNameErr f.Name "")
        | _ => .error (.argTypesNotFound f.Name)
  | _, _ => .error .ErrNotSupport

/-! ## Invocation facade -/

/-- The closure `getInTyp` of `CallFunc`: the expected type (`none` for nil) and its
name for the argument index `i`.  Every index it reads is within range of `inTyps`
by its guards; `inNames` has the length of `inTyps`. -/
def getInTyp {T V D : Type} (C : Collab T V D) (inTyps : Slice T) (inNames : Slice String)
    (variadic : Bool) (i : Nat) : Option T × String :=
  if inTyps.len ≤ 0 then (none, "")
  else if i < inTyps.len - 1 then (inTyps.toList[i]?, inNames.toList.getD i "")
  else if variadic then
    ((inTyps.toList[inTyps.len - 1]?).map C.Elem, inNames.toList.getD (inNames.len - 1) "")
  else if i < inTyps.len then (inTyps.toList[i]?, inNames.toList.getD i "")
  else (none, "")

/-- The validation loop `for i, arg := range args` of `CallFunc`, from index `i` on:
the error it returns, or `none` when it runs to the end. -/
def CallFunc.validate {T V D : Type} (C : Collab T V D) (inTyps : Slice T)
    (inNames : Slice String) (variadic : Bool) : Nat → List V → Option Error
  | _, [] => none
  | i, arg :: args =>
    match getInTyp C inTyps inNames variadic i with
    | (none, _) => some (.lenMismatch i)
    | (some inTyp, inName) =>
      if !C.AssignableTo (C.TypeOf arg) inTyp then some (.typeMismatch i inName)
      else CallFunc.validate C inTyps inNames variadic (i + 1) args

/-- The method `CallFunc`.  Next to its outcome it returns the native calls it performed,
each as the callable and the arguments with which the target was entered; a panic of
`reflect.FuncOf` or of `newFunc.Call` leaves the target unentered. -/
def DwarfRT.CallFunc {T V D : Type} (C : Collab T V D) (d : DwarfRT) (name : String)
    (variadic : Bool) (args : List V) :
    Result (List V) × List (FuncValue T × List V) :=
  match d.check with
  | some err => (.error err, [])
  | none =>
    match d.findFunc name with
    | .error err => (.error err, [])
    | .ok f =>
      match d.getFunctionArgTypes C f with
      | .error err => (.error err, [])
      | .ok sig =>
        match FuncOf C sig.inTyps sig.outTyps variadic with
        | .error p => (.panic p, [])
        | .ok ftyp =>
          let newFunc := CreateFuncForCodePtr ftyp f.Entry
          match CallFunc.validate C sig.inTyps sig.inNames variadic 0 args with
          | some err => (.error err, [])
          | none =>
            match reflectCall C newFunc args with
            | .error p => (.panic p, [])
            | .ok out => (.ok out, [(newFunc, args)])

/-- The method `FindFuncType`. -/
def DwarfRT.FindFuncType {T V D : Type} (C : Collab T V D) (d : DwarfRT) (name : String)
    (variadic : Bool) : Result (FuncType T) :=
  match d.check with
  | some err => .error err
  | none =>
    match d.findFunc name with
    | .error err => .error err
    | .ok f =>
      match d.getFunctionArgTypes C f with
      | .error err => .error err
      | .ok sig =>
        match FuncOf C sig.inTyps sig.outTyps variadic with
        | .error p => .panic p
        | .ok ftyp => .ok ftyp

/-- The method `FindFunc`. -/
def DwarfRT.FindFunc {T V D : Type} (C : Collab T V D) (d : DwarfRT) (name : String)
    (variadic : Bool) : Result (FuncValue T) :=
  match d.FindFuncPc name with
  | .error err => .error err
  | .ok pc =>
    match d.FindFuncType C name variadic with
    | .error err => .error err
    | .panic p => .panic p
    | .ok ftyp => .ok (CreateFuncForCodePtr ftyp pc)

/-! ## Vocabulary of the statements -/

/-- The last occurrence of `name` in `fs` is at index `j` and holds `fn`. -/
def LastOccurrence (fs : List Function) (name : String) (j : Nat) (fn : Function) : Prop :=
  fs[j]? = some fn ∧ fn.Name = name ∧ ∀ m g, j < m → fs[m]? = some g → g.Name ≠ name

/-- The name cannot be resolved in the list: it is absent, or its last occurrence has
entry address `0`. -/
def Unresolvable (fs : List Function) (name : String) : Prop :=
  (∀ g ∈ fs, g.Name ≠ name) ∨ ∃ j fn, LastOccurrence fs name j fn ∧ fn.Entry = 0

/-- The maximal leading run of formal-parameter records of a reader: the records read
before the first read that yields no record, an error, or a record with another tag. -/
def paramRun : Reader → List Entry
  | [] => []
  | (_, .error _) :: _ => []
  | (_, .ok child) :: reader =>
    if child.Tag = TagFormalParameter then child :: paramRun reader else []

/-- The canonical type name the loop computes for a parameter record. -/
def paramTypeName {T V D : Type} (C : Collab T V D) (dwarfData : Nat) (child : Entry) :
    String :=
  match C.entryType dwarfData child with
  | .ok dtyp => C.dwarfTypeName dtyp
  | .error _ => ""

/-- The runtime type the loop resolves for a parameter record, if it resolves. -/
def paramType {T V D : Type} (C : Collab T V D) (dwarfData : Nat) (child : Entry) :
    Option T :=
  match C.entryType dwarfData child with
  | .ok dtyp =>
    match C.FindType (C.dwarfTypeName dtyp) with
    | .ok rtyp => some rtyp
    | .error _ => none
  | .error _ => none

/-- The input records of a run: those without the return-slot marker. -/
def inputsOf (run : List Entry) : List Entry := run.filter (fun e => !isret e)

/-- The output records of a run: those with the return-slot marker. -/
def outputsOf (run : List Entry) : List Entry := run.filter (fun e => isret e)

/-- The reader stops a parameter run: it is at the end of the section, or its next
record has another tag than formal parameter (the terminator has tag `0`). -/
def StopsRun (tail : Reader) : Prop :=
  tail = [] ∨ ∃ o stop tail2, tail = (o, .ok stop) :: tail2 ∧ stop.Tag ≠ TagFormalParameter

/-- The records of a run as the reader yields them. -/
def asRecords (run : List (Nat × Entry)) : Reader :=
  run.map (fun p => (p.1, .ok p.2))

/-- The argument at index `i` passes validation: an expected type exists and the
argument's type is assignable to it. -/
def argOk {T V D : Type} (C : Collab T V D) (sig : ArgTypes T) (variadic : Bool) (i : Nat)
    (arg : V) : Bool :=
  match (getInTyp C sig.inTyps sig.inNames variadic i).1 with
  | none => false
  | some inTyp => C.AssignableTo (C.TypeOf arg) inTyp

/-- The error the loop returns for an argument at index `i` that does not pass. -/
def argErr {T V D : Type} (C : Collab T V D) (sig : ArgTypes T) (variadic : Bool) (i : Nat) :
    Error :=
  match getInTyp C sig.inTyps sig.inNames variadic i with
  | (none, _) => .lenMismatch i
  | (some _, inName) => .typeMismatch i inName

/-- The five results of `getFunctionArgTypes` as Go returns them: the four lists and the
error.  The success return of the source is `inTyps, outTyps, inNames, outNames, nil`,
and every error return is `nil, nil, nil, nil, err`. -/
def returned {T : Type} : Except Error (ArgTypes T) → ArgTypes T × Option Error
  | .ok sig => (sig, none)
  | .error err => (⟨.nil, .nil, .nil, .nil⟩, some err)

/-- The name lists have the lengths of the type lists. -/
def Balanced {T : Type} (sig : ArgTypes T) : Prop :=
  sig.inNames.len = sig.inTyps.len ∧ sig.outNames.len = sig.outTyps.len

/-- The record read at the function's offset does not describe the function: the read
fails or yields no record, or the record is not tagged as a subprogram, or it has no
string name attribute, or its name differs from the function's name. -/
def BadHead (f : Function) : Except String (Option Entry) → Prop
  | .error _ => True
  | .ok none => True
  | .ok (some entry) =>
    entry.Tag ≠ TagSubprogram ∨ (∀ s, entry.Val AttrName ≠ some (.str s)) ∨
      ∃ s, entry.Val AttrName = some (.str s) ∧ s ≠ f.Name

/-- The error `getFunctionArgTypes` returns for such a record: it is made of the
function's name and of the record read at its offset alone. -/
def headError (f : Function) : Except String (Option Entry) → Error
  | .ok (some entry) =>
    if entry.Tag ≠ TagSubprogram then .argTypesNotFound f.Name
    else
      match entry.Val AttrName with
      | some (.str name) => .argTypesNameErr f.Name name
      | _ => .argTypesNameErr f.Name ""
  | _ => .argTypesNotFound f.Name

/-! ## A concrete provider, used to evaluate the code -/

namespace Demo

/-- Runtime types of the concrete provider. -/
inductive Ty where
  | int
  | string
  | sliceInt
  | arrayInt
  deriving DecidableEq, Repr

/-- Runtime values of the concrete provider: a type and a payload. -/
structure Val where
  typ : Ty
  data : Nat
  deriving DecidableEq, Repr

/-- The collaborators of the concrete provider.  A parameter record names its type by
the attribute `AttrType`; the native call adds up the payloads of its arguments. -/
def collab : Collab Ty Val String where
  entryType := fun _ child =>
    match child.Val AttrType with
    | some (.other 1) => .ok "int"
    | some (.other 2) => .ok "string"
    | some (.other 3) => .ok "[]int"
    | some (.other 4) => .ok "float64"
    | some (.other 5) => .ok "[2]int"
    | _ => .error "no type"
  dwarfTypeName := fun dtyp => dtyp
  FindType := fun dname =>
    if dname = "int" then .ok .int
    else if dname = "string" then .ok .string
    else if dname = "[]int" then .ok .sliceInt
    else if dname = "[2]int" then .ok .arrayInt
    else .error "type not found"
  TypeOf := fun v => v.typ
  AssignableTo := fun t u => decide (t = u)
  Elem := fun t =>
    match t with
    | .sliceInt => .int
    | .arrayInt => .int
    | t => t
  IsSlice := fun t => decide (t = .sliceInt)
  Call := fun _ args => [⟨.int, (args.map (fun v => v.data)).sum⟩]

/-- A formal-parameter record with a name, a type reference and the return-slot flag. -/
def param (off : Nat) (name : String) (typ : Nat) (ret : Bool) : Nat × ReadResult :=
  (off, .ok ⟨off, TagFormalParameter,
    [⟨AttrName, .str name⟩, ⟨AttrVarParam, .bool ret⟩, ⟨AttrType, .other typ⟩]⟩)

/-- A subprogram record with a name. -/
def subprogram (off : Nat) (name : String) : Nat × ReadResult :=
  (off, .ok ⟨off, TagSubprogram, [⟨AttrName, .str name⟩]⟩)

/-- A terminator (null) record. -/
def terminator (off : Nat) : Nat × ReadResult :=
  (off, .ok ⟨off, 0, []⟩)

/-- The debug section of the concrete provider:
`sum(a int, b int) int`, `show(s string)`, `total(xs ...int) int`. -/
def image : Image where
  dwarf := some 0
  records :=
    [ subprogram 100 "sum", param 110 "a" 1 false, param 120 "b" 1 false,
      param 130 "~r0" 1 true, terminator 140,
      subprogram 200 "show", param 210 "s" 2 false, terminator 220,
      subprogram 300 "total", param 310 "xs" 3 false, param 320 "~r0" 1 true,
      terminator 330 ]

/-- A symbol of the concrete provider. -/
def sym (name : String) (pc off : Nat) : Function :=
  ⟨name, pc, some off, some ⟨some image⟩⟩

/-- The concrete provider: its symbol table holds the three functions. -/
def rt : DwarfRT where
  check := none
  bi := ⟨[sym "sum" 0x1000 100, sym "show" 0x2000 200, sym "total" 0x3000 300]⟩

/-- The signature of `sum` as `getFunctionArgTypes` reconstructs it: the name lists hold
the canonical type names. -/
def sumSig : ArgTypes Ty :=
  ⟨.mk [.int, .int], .mk [.int], .mk ["int", "int"], .mk ["int"]⟩

/-- A provider whose symbol table is the given list. -/
def rtOf (fs : List Function) : DwarfRT := ⟨none, ⟨fs⟩⟩

/-- A second debug section: `nop()` without parameters, `bad(x int, y float64)` whose
second parameter has a type the resolver does not know, and a record at offset `300`
that cannot be decoded. -/
def image2 : Image where
  dwarf := some 0
  records :=
    [ subprogram 100 "nop", terminator 110,
      subprogram 200 "bad", param 210 "x" 1 false, param 220 "y" 4 false, terminator 230,
      (300, .error "decoding error") ]

/-- A symbol whose debug records are in the second section. -/
def sym2 (name : String) (pc off : Nat) : Function :=
  ⟨name, pc, some off, some ⟨some image2⟩⟩

/-- A provider over the second section. -/
def rt2 : DwarfRT where
  check := none
  bi := ⟨[sym2 "nop" 0x4000 100, sym2 "bad" 0x5000 200]⟩

/-- A third debug section: `pair(p [2]int)`, whose only input is an array, and
`join(s string, xs ...int) int`. -/
def image3 : Image where
  dwarf := some 0
  records :=
    [ subprogram 100 "pair", param 110 "p" 5 false, terminator 120,
      subprogram 200 "join", param 210 "s" 2 false, param 220 "xs" 3 false,
      param 230 "~r0" 1 true, terminator 240 ]

/-- A symbol whose debug records are in the third section. -/
def sym3 (name : String) (pc off : Nat) : Function :=
  ⟨name, pc, some off, some ⟨some image3⟩⟩

/-- A provider over the third section. -/
def rt3 : DwarfRT where
  check := none
  bi := ⟨[sym3 "pair" 0x6000 100, sym3 "join" 0x7000 200]⟩

/-- A provider whose check fails. -/
def rtDown : DwarfRT where
  check := some (.checkFailed "not init")
  bi := ⟨[sym "sum" 0x1000 100]⟩

end Demo

/-! ## Symbol index: lemmas on the end-to-start scan -/

/-- The scan below index `k` stops at the highest index below `k` that holds the name. -/
theorem findFunc_loop_last (fs : List Function) (name : String) (fn : Function) (j : Nat) :
    ∀ k : Nat, j < k → fs[j]? = some fn → fn.Name = name →
      (∀ m g, j < m → m < k → fs[m]? = some g → g.Name ≠ name) →
      findFunc.loop fs name k = if fn.Entry ≠ 0 then .ok fn else .error .ErrNotFound := by
  intro k
  induction k with
  | zero => intro h; omega
  | succ k ih =>
    intro hjk hj hname hlater
    by_cases hk : j = k
    · subst hk
      simp only [findFunc.loop, hj, hname, if_true]
    · have hjk2 : j < k := by omega
      have hrec := ih hjk2 hj hname (fun m g h1 h2 h3 => hlater m g h1 (by omega) h3)
      cases hg : fs[k]? with
      | none => simp only [findFunc.loop, hg]; exact hrec
      | some g =>
        have hne : g.Name ≠ name := hlater k g hjk2 (by omega) hg
        simp only [findFunc.loop, hg, if_neg hne]
        exact hrec

/-- The scan below index `k` fails when no index below `k` holds the name. -/
theorem findFunc_loop_absent (fs : List Function) (name : String) :
    ∀ k : Nat, (∀ m g, m < k → fs[m]? = some g → g.Name ≠ name) →
      findFunc.loop fs name k = .error .ErrNotFound := by
  intro k
  induction k with
  | zero => intro _; rfl
  | succ k ih =>
    intro h
    have hrec := ih (fun m g h1 h2 => h m g (by omega) h2)
    cases hg : fs[k]? with
    | none => simp only [findFunc.loop, hg]; exact hrec
    | some g =>
      have hne : g.Name ≠ name := h k g (by omega) hg
      simp only [findFunc.loop, hg, if_neg hne]
      exact hrec

/-- Below any index `k`, either no index holds the name or there is a highest one
that does. -/
theorem exists_last_occurrence (fs : List Function) (name : String) :
    ∀ k : Nat, (∀ m g, m < k → fs[m]? = some g → g.Name ≠ name) ∨
      (∃ j fn, j < k ∧ fs[j]? = some fn ∧ fn.Name = name ∧
        ∀ m g, j < m → m < k → fs[m]? = some g → g.Name ≠ name) := by
  intro k
  induction k with
  | zero => left; intro m g h; omega
  | succ k ih =>
    cases hg : fs[k]? with
    | none =>
      rcases ih with h | ⟨j, fn, hj, hfn, hn, hl⟩
      · left
        intro m g hm hmg
        by_cases hmk : m = k
        · subst hmk; rw [hg] at hmg; cases hmg
        · exact h m g (by omega) hmg
      · right
        refine ⟨j, fn, by omega, hfn, hn, ?_⟩
        intro m g h1 h2 hmg
        by_cases hmk : m = k
        · subst hmk; rw [hg] at hmg; cases hmg
        · exact hl m g h1 (by omega) hmg
    | some g0 =>
      by_cases hname : g0.Name = name
      · right
        exact ⟨k, g0, by omega, hg, hname, fun m g h1 h2 _ => by omega⟩
      · rcases ih with h | ⟨j, fn, hj, hfn, hn, hl⟩
        · left
          intro m g hm hmg
          by_cases hmk : m = k
          · subst hmk; rw [hg] at hmg; cases hmg; exact hname
          · exact h m g (by omega) hmg
        · right
          refine ⟨j, fn, by omega, hfn, hn, ?_⟩
          intro m g h1 h2 hmg
          by_cases hmk : m = k
          · subst hmk; rw [hg] at hmg; cases hmg; exact hname
          · exact hl m g h1 (by omega) hmg

/-- The name is absent from the list exactly when no index holds it. -/
theorem absent_iff_index (fs : List Function) (name : String) :
    (∀ g ∈ fs, g.Name ≠ name) ↔
      (∀ m g, m < fs.length → fs[m]? = some g → g.Name ≠ name) := by
  constructor
  · intro h m g _ hmg
    exact h g (List.getElem?_mem hmg)
  · intro h g hg
    obtain ⟨m, hm, hmg⟩ := List.getElem_of_mem hg
    exact h m g hm (by rw [List.getElem?_eq_getElem hm, hmg])

/-- The method `findFunc` decided by the last occurrence of the name. -/
theorem findFunc_of_last (d : DwarfRT) (name : String) (j : Nat) (fn : Function)
    (h : LastOccurrence d.bi.Functions name j fn) :
    d.findFunc name = if fn.Entry ≠ 0 then .ok fn else .error .ErrNotFound := by
  obtain ⟨hj, hname, hlater⟩ := h
  have hlt : j < d.bi.Functions.length := by
    by_contra hge
    rw [List.getElem?_eq_none (by omega)] at hj
    cases hj
  exact findFunc_loop_last d.bi.Functions name fn j _ hlt hj hname
    (fun m g h1 _ h3 => hlater m g h1 h3)

/-- The method `findFunc` fails on a name that is absent. -/
theorem findFunc_of_absent (d : DwarfRT) (name : String)
    (h : ∀ g ∈ d.bi.Functions, g.Name ≠ name) :
    d.findFunc name = .error .ErrNotFound :=
  findFunc_loop_absent d.bi.Functions name _ ((absent_iff_index _ _).1 h)

/-- Every name is absent or has a last occurrence. -/
theorem absent_or_last (fs : List Function) (name : String) :
    (∀ g ∈ fs, g.Name ≠ name) ∨ ∃ j fn, LastOccurrence fs name j fn := by
  rcases exists_last_occurrence fs name fs.length with h | ⟨j, fn, _, hfn, hn, hl⟩
  · left; exact (absent_iff_index fs name).2 h
  · right
    refine ⟨j, fn, hfn, hn, ?_⟩
    intro m g h1 hmg
    by_cases hm : m < fs.length
    · exact hl m g h1 hm hmg
    · rw [List.getElem?_eq_none (by omega)] at hmg
      cases hmg

/-- The method `findFunc` fails with `ErrNotFound` on an unresolvable name. -/
theorem findFunc_of_unresolvable (d : DwarfRT) (name : String)
    (h : Unresolvable d.bi.Functions name) : d.findFunc name = .error .ErrNotFound := by
  rcases h with h | ⟨j, fn, hl, h0⟩
  · exact findFunc_of_absent d name h
  · rw [findFunc_of_last d name j fn hl]
    simp [h0]

/-- The two outcomes of `findFunc`: `ErrNotFound` on an unresolvable name, or the last
occurrence of the name, whose entry address is not `0`. -/
theorem findFunc_cases (d : DwarfRT) (name : String) :
    (d.findFunc name = .error .ErrNotFound ∧ Unresolvable d.bi.Functions name) ∨
    (∃ j fn, d.findFunc name = .ok fn ∧ LastOccurrence d.bi.Functions name j fn ∧
      fn.Entry ≠ 0) := by
  rcases absent_or_last d.bi.Functions name with h | ⟨j, fn, hl⟩
  · left
    exact ⟨findFunc_of_absent d name h, Or.inl h⟩
  · by_cases h0 : fn.Entry = 0
    · left
      exact ⟨findFunc_of_unresolvable d name (Or.inr ⟨j, fn, hl, h0⟩), Or.inr ⟨j, fn, hl, h0⟩⟩
    · right
      refine ⟨j, fn, ?_, hl, h0⟩
      rw [findFunc_of_last d name j fn hl]
      simp [h0]

/-- With a usable provider `FindFuncEntry` is `findFunc`. -/
theorem FindFuncEntry_eq_findFunc (d : DwarfRT) (name : String) (hcheck : d.check = none) :
    d.FindFuncEntry name = d.findFunc name := by
  unfold DwarfRT.FindFuncEntry
  rw [hcheck]
  cases d.findFunc name <;> rfl

/-- With a usable provider `FindFuncPc` is the entry address of what `findFunc` finds. -/
theorem FindFuncPc_eq_findFunc (d : DwarfRT) (name : String) (hcheck : d.check = none) :
    d.FindFuncPc name = (d.findFunc name).map (fun f => f.Entry) := by
  unfold DwarfRT.FindFuncPc
  rw [hcheck]
  cases d.findFunc name <;> rfl

/-- Folding a visitor that skips zero entries is folding over the filtered list. -/
theorem foldl_skip_zero {σ : Type} (f : String → Nat → σ → σ) (fs : List Function) :
    ∀ s : σ,
      fs.foldl (fun st function =>
        if function.Entry ≠ 0 then f function.Name function.Entry st else st) s =
      (fs.filter (fun fn => fn.Entry != 0)).foldl (fun st fn => f fn.Name fn.Entry st) s := by
  induction fs with
  | nil => intro s; rfl
  | cons fn rest ih =>
    intro s
    simp only [List.foldl_cons, List.filter_cons]
    by_cases h : fn.Entry = 0
    · have hb : (fn.Entry != 0) = false := by simp [h]
      rw [if_neg (not_not.mpr h)]
      simp only [hb, Bool.false_eq_true, if_false]
      exact ih s
    · have hb : (fn.Entry != 0) = true := by simp [h]
      rw [if_pos h]
      simp only [hb, if_true, List.foldl_cons]
      exact ih _

/-- Folding the recording visitor over a list appends the list's pairs to the log. -/
theorem foldl_record (fs : List Function) :
    ∀ log : List (String × Nat),
      fs.foldl (fun st fn => st ++ [(fn.Name, fn.Entry)]) log =
      log ++ fs.map (fun fn => (fn.Name, fn.Entry)) := by
  induction fs with
  | nil => intro log; simp
  | cons fn rest ih => intro log; simp [ih]

/-! ## Signature reconstruction: what the parameter loop computes -/

/-- One iteration of the parameter loop in terms of `reader.Next()`: a read error
aborts, no record or a record that is not a formal parameter ends the loop, and a
formal parameter is resolved, classified and appended before the next iteration. -/
theorem getFunctionArgTypes_loop_next {T V D : Type} (C : Collab T V D) (dwarfData : Nat)
    (fname : String) (reader : Reader) (acc : ArgTypes T) :
    getFunctionArgTypes.loop C dwarfData fname reader acc =
      match Reader.Next reader with
      | (.error msg, _) => .error (.argTypesReaderErr fname msg)
      | (.ok none, _) => .ok acc
      | (.ok (some child), reader2) =>
        if child.Tag = 0 then .ok acc
        else if child.Tag ≠ TagFormalParameter then .ok acc
        else
          match C.entryType dwarfData child with
          | .error msg => .error (.argTypesTypeErr fname msg)
          | .ok dtyp =>
            match C.FindType (C.dwarfTypeName dtyp) with
            | .error msg => .error (.argTypesTypeErr fname msg)
            | .ok rtyp =>
              if isret child then
                getFunctionArgTypes.loop C dwarfData fname reader2
                  { acc with outTyps := acc.outTyps.append rtyp,
                             outNames := acc.outNames.append (C.dwarfTypeName dtyp) }
              else
                getFunctionArgTypes.loop C dwarfData fname reader2
                  { acc with inTyps := acc.inTyps.append rtyp,
                             inNames := acc.inNames.append (C.dwarfTypeName dtyp) } := by
  match reader with
  | [] => rfl
  | (_, .error _) :: _ => rfl
  | (_, .ok _) :: _ => rfl

/-- Formal-parameter records followed by a reader that stops the run are the maximal
leading run: whatever follows the stop is not part of it. -/
theorem paramRun_of_run (run : List (Nat × Entry)) (tail : Reader)
    (hrun : ∀ p ∈ run, p.2.Tag = TagFormalParameter) (htail : StopsRun tail) :
    paramRun (asRecords run ++ tail) = run.map (fun p => p.2) := by
  induction run with
  | nil =>
    rcases htail with h | ⟨o, stop, tail2, h, hstop⟩
    · subst h; rfl
    · subst h; simp [asRecords, paramRun, hstop]
  | cons p rest ih =>
    have hp : p.2.Tag = TagFormalParameter := hrun p (List.mem_cons_self _ _)
    have hrest : ∀ x ∈ rest, x.2.Tag = TagFormalParameter :=
      fun x hx => hrun x (List.mem_cons_of_mem _ hx)
    have := ih hrest
    simp only [asRecords] at this
    simp [asRecords, paramRun, hp, this]

/-- What a successful run of the parameter loop returns: the lists it started from,
extended by the resolved types and the type names of the input records and of the
output records of the leading parameter run, in encounter order. -/
theorem loop_ok_inv {T V D : Type} (C : Collab T V D) (dwarfData : Nat) (fname : String) :
    ∀ (reader : Reader) (acc sig : ArgTypes T),
      getFunctionArgTypes.loop C dwarfData fname reader acc = .ok sig →
      sig.inTyps.toList.map some =
        acc.inTyps.toList.map some ++ (inputsOf (paramRun reader)).map (paramType C dwarfData) ∧
      sig.outTyps.toList.map some =
        acc.outTyps.toList.map some ++ (outputsOf (paramRun reader)).map (paramType C dwarfData) ∧
      sig.inNames.toList =
        acc.inNames.toList ++ (inputsOf (paramRun reader)).map (paramTypeName C dwarfData) ∧
      sig.outNames.toList =
        acc.outNames.toList ++ (outputsOf (paramRun reader)).map (paramTypeName C dwarfData) := by
  intro reader
  induction reader with
  | nil =>
    intro acc sig h
    simp only [getFunctionArgTypes.loop] at h
    cases h
    simp [paramRun, inputsOf, outputsOf]
  | cons r reader ih =>
    intro acc sig h
    obtain ⟨o, res⟩ := r
    cases res with
    | error msg => simp only [getFunctionArgTypes.loop] at h; cases h
    | ok child =>
      simp only [getFunctionArgTypes.loop] at h
      by_cases h0 : child.Tag = 0
      · rw [if_pos h0] at h
        cases h
        have hne : child.Tag ≠ TagFormalParameter := by rw [h0]; decide
        simp [paramRun, inputsOf, outputsOf, hne]
      · rw [if_neg h0] at h
        by_cases hp : child.Tag = TagFormalParameter
        · rw [if_neg (not_not.mpr hp)] at h
          cases het : C.entryType dwarfData child with
          | error msg => rw [het] at h; cases h
          | ok dtyp =>
            rw [het] at h
            simp only at h
            cases hft : C.FindType (C.dwarfTypeName dtyp) with
            | error msg => rw [hft] at h; cases h
            | ok rtyp =>
              rw [hft] at h
              simp only at h
              have hty : paramType C dwarfData child = some rtyp := by
                simp [paramType, het, hft]
              have hnm : paramTypeName C dwarfData child = C.dwarfTypeName dtyp := by
                simp [paramTypeName, het]
              by_cases hr : isret child = true
              · rw [if_pos hr] at h
                obtain ⟨h1, h2, h3, h4⟩ := ih _ _ h
                simp only [paramRun, if_pos hp, inputsOf, outputsOf, List.filter_cons, hr,
                  Bool.not_true, Bool.false_eq_true, if_false, if_true, List.map_cons, hty, hnm]
                simp only [inputsOf, outputsOf, Slice.append, Slice.toList, List.map_append,
                  List.map_cons, List.map_nil, List.append_assoc, List.singleton_append] at h1 h2 h3 h4
                exact ⟨h1, h2, h3, h4⟩
              · rw [if_neg hr] at h
                have hrf : isret child = false := by simpa using hr
                obtain ⟨h1, h2, h3, h4⟩ := ih _ _ h
                simp only [paramRun, if_pos hp, inputsOf, outputsOf, List.filter_cons, hrf,
                  Bool.not_false, Bool.false_eq_true, if_false, if_true, List.map_cons, hty, hnm]
                simp only [inputsOf, outputsOf, Slice.append, Slice.toList, List.map_append,
                  List.map_cons, List.map_nil, List.append_assoc, List.singleton_append] at h1 h2 h3 h4
                exact ⟨h1, h2, h3, h4⟩
        · rw [if_pos hp] at h
          cases h
          simp [paramRun, inputsOf, outputsOf, hp]

/-- The parameter loop succeeds on a run of formal-parameter records whose types all
resolve, followed by a reader that stops the run. -/
theorem loop_succeeds {T V D : Type} (C : Collab T V D) (dwarfData : Nat) (fname : String)
    (tail : Reader) (htail : StopsRun tail) :
    ∀ (run : List (Nat × Entry)) (acc : ArgTypes T),
      (∀ p ∈ run, p.2.Tag = TagFormalParameter) →
      (∀ p ∈ run, (paramType C dwarfData p.2).isSome = true) →
      ∃ sig, getFunctionArgTypes.loop C dwarfData fname (asRecords run ++ tail) acc = .ok sig := by
  intro run
  induction run with
  | nil =>
    intro acc _ _
    rcases htail with h | ⟨o, stop, tail2, h, hstop⟩
    · subst h; exact ⟨acc, rfl⟩
    · subst h
      refine ⟨acc, ?_⟩
      simp only [asRecords, List.map_nil, List.nil_append, getFunctionArgTypes.loop]
      by_cases h0 : stop.Tag = 0
      · rw [if_pos h0]
      · rw [if_neg h0, if_pos hstop]
  | cons p run ih =>
    intro acc hrun hres
    have hp : p.2.Tag = TagFormalParameter := hrun p (List.mem_cons_self _ _)
    have hchild : (paramType C dwarfData p.2).isSome = true := hres p (List.mem_cons_self _ _)
    have hrun2 : ∀ x ∈ run, x.2.Tag = TagFormalParameter :=
      fun x hx => hrun x (List.mem_cons_of_mem _ hx)
    have hres2 : ∀ x ∈ run, (paramType C dwarfData x.2).isSome = true :=
      fun x hx => hres x (List.mem_cons_of_mem _ hx)
    have h0 : p.2.Tag ≠ 0 := by rw [hp]; decide
    have hcons : asRecords (p :: run) ++ tail = (p.1, .ok p.2) :: (asRecords run ++ tail) := rfl
    rw [hcons]
    simp only [getFunctionArgTypes.loop]
    rw [if_neg h0, if_neg (not_not.mpr hp)]
    cases het : C.entryType dwarfData p.2 with
    | error msg => simp [paramType, het] at hchild
    | ok dtyp =>
      simp only
      cases hft : C.FindType (C.dwarfTypeName dtyp) with
      | error msg => simp [paramType, het, hft] at hchild
      | ok rtyp =>
        simp only
        by_cases hr : isret p.2 = true
        · rw [if_pos hr]; exact ih _ hrun2 hres2
        · rw [if_neg hr]; exact ih _ hrun2 hres2

/-- The method `getFunctionArgTypes` on a function whose reflected fields are present
and whose offset holds a subprogram record with the function's name: it runs the
parameter loop on the records that follow, starting from four nil lists. -/
theorem getFunctionArgTypes_eq_loop {T V D : Type} (C : Collab T V D) (d : DwarfRT)
    (f : Function) (off : Nat) (cu : CompileUnit) (image : Image) (dwarfData o : Nat)
    (sub : Entry) (rest : Reader)
    (hoff : f.offset = some off) (hcu : f.cu = some cu) (himg : cu.image = some image)
    (hdw : image.dwarf = some dwarfData) (hseek : image.Seek off = (o, .ok sub) :: rest)
    (htag : sub.Tag = TagSubprogram) (hname : sub.Val AttrName = some (.str f.Name)) :
    d.getFunctionArgTypes C f =
      getFunctionArgTypes.loop C dwarfData f.Name rest ⟨.nil, .nil, .nil, .nil⟩ := by
  unfold DwarfRT.getFunctionArgTypes
  rw [hoff, hcu]
  simp only [himg, hdw, hseek, Reader.Next, htag, hname, ne_eq, not_true_eq_false, if_false]

/-! ## Call validation: lemmas on the argument loop -/

/-- One iteration of the validation loop. -/
theorem validate_cons {T V D : Type} (C : Collab T V D) (sig : ArgTypes T) (variadic : Bool)
    (i : Nat) (arg : V) (args : List V) :
    CallFunc.validate C sig.inTyps sig.inNames variadic i (arg :: args) =
      if argOk C sig variadic i arg = true then
        CallFunc.validate C sig.inTyps sig.inNames variadic (i + 1) args
      else some (argErr C sig variadic i) := by
  simp only [CallFunc.validate, argOk, argErr]
  rcases hg : getInTyp C sig.inTyps sig.inNames variadic i with ⟨t, nm⟩
  cases t with
  | none => simp
  | some t =>
    cases ha : C.AssignableTo (C.TypeOf arg) t <;> simp [ha]

/-- The loop skips a prefix of arguments that all pass. -/
theorem validate_append {T V D : Type} (C : Collab T V D) (sig : ArgTypes T)
    (variadic : Bool) (post : List V) :
    ∀ (pre : List V) (i : Nat),
      (∀ k arg, pre[k]? = some arg → argOk C sig variadic (i + k) arg = true) →
      CallFunc.validate C sig.inTyps sig.inNames variadic i (pre ++ post) =
        CallFunc.validate C sig.inTyps sig.inNames variadic (i + pre.length) post := by
  intro pre
  induction pre with
  | nil => intro i _; rfl
  | cons a pre ih =>
    intro i h
    have h0 : argOk C sig variadic i a = true := h 0 a (by simp)
    have hrest : ∀ k arg, pre[k]? = some arg → argOk C sig variadic (i + 1 + k) arg = true := by
      intro k arg hk
      have := h (k + 1) arg (by simpa using hk)
      rw [show i + 1 + k = i + (k + 1) by omega]
      exact this
    rw [List.cons_append, validate_cons, if_pos h0, ih (i + 1) hrest]
    rw [show i + 1 + pre.length = i + (a :: pre).length by simp; omega]

/-- The loop runs to the end exactly when every argument passes. -/
theorem validate_none_iff {T V D : Type} (C : Collab T V D) (sig : ArgTypes T)
    (variadic : Bool) :
    ∀ (args : List V) (i : Nat),
      CallFunc.validate C sig.inTyps sig.inNames variadic i args = none ↔
        ∀ k arg, args[k]? = some arg → argOk C sig variadic (i + k) arg = true := by
  intro args
  induction args with
  | nil => intro i; simp [CallFunc.validate]
  | cons a args ih =>
    intro i
    rw [validate_cons]
    constructor
    · intro h k arg hk
      by_cases h0 : argOk C sig variadic i a = true
      · rw [if_pos h0] at h
        cases k with
        | zero => simp at hk; subst hk; exact h0
        | succ k =>
          have := (ih (i + 1)).1 h k arg (by simpa using hk)
          rw [show i + (k + 1) = i + 1 + k by omega]
          exact this
      · rw [if_neg h0] at h; cases h
    · intro h
      have h0 : argOk C sig variadic i a = true := h 0 a (by simp)
      rw [if_pos h0]
      apply (ih (i + 1)).2
      intro k arg hk
      have := h (k + 1) arg (by simpa using hk)
      rw [show i + 1 + k = i + (k + 1) by omega]
      exact this

/-- The loop returns the error of the first argument that does not pass. -/
theorem validate_first_failure {T V D : Type} (C : Collab T V D) (sig : ArgTypes T)
    (variadic : Bool) (args : List V) (i : Nat) (arg : V)
    (hpre : ∀ k a, k < i → args[k]? = some a → argOk C sig variadic k a = true)
    (hi : args[i]? = some arg) (hfail : argOk C sig variadic i arg = false) :
    CallFunc.validate C sig.inTyps sig.inNames variadic 0 args =
      some (argErr C sig variadic i) := by
  have hlt : i < args.length := by
    by_contra hge
    rw [List.getElem?_eq_none (by omega)] at hi
    cases hi
  have hsplit : args = args.take i ++ arg :: args.drop (i + 1) := by
    have hget : args[i] = arg := by
      rw [List.getElem?_eq_getElem hlt] at hi
      exact Option.some.inj hi
    rw [← hget, List.getElem_cons_drop args i hlt, List.take_append_drop]
  have hlen : (args.take i).length = i := by
    rw [List.length_take]; omega
  rw [hsplit, validate_append C sig variadic _ (args.take i) 0, validate_cons, hlen]
  · simp [hfail]
  · intro k a hk
    rw [Nat.zero_add]
    have hk2 : k < i := by
      by_contra hge
      rw [List.getElem?_eq_none (by rw [hlen]; omega)] at hk
      cases hk
    apply hpre k a hk2
    rw [List.getElem?_take] at hk
    simpa [hk2] using hk

/-- An argument passes exactly when an expected type exists to which its type is
assignable. -/
theorem argOk_iff {T V D : Type} (C : Collab T V D) (sig : ArgTypes T) (variadic : Bool)
    (i : Nat) (arg : V) :
    argOk C sig variadic i arg = true ↔
      ∃ t, (getInTyp C sig.inTyps sig.inNames variadic i).1 = some t ∧
        C.AssignableTo (C.TypeOf arg) t = true := by
  unfold argOk
  cases (getInTyp C sig.inTyps sig.inNames variadic i).1 with
  | none => simp
  | some t => simp

/-- A returned validation error is the error of the first argument that does not pass. -/
theorem validate_some_inv {T V D : Type} (C : Collab T V D) (sig : ArgTypes T)
    (variadic : Bool) :
    ∀ (args : List V) (i : Nat) (e : Error),
      CallFunc.validate C sig.inTyps sig.inNames variadic i args = some e →
      ∃ k arg, args[k]? = some arg ∧
        (∀ m a, m < k → args[m]? = some a → argOk C sig variadic (i + m) a = true) ∧
        argOk C sig variadic (i + k) arg = false ∧ e = argErr C sig variadic (i + k) := by
  intro args
  induction args with
  | nil => intro i e h; simp [CallFunc.validate] at h
  | cons a args ih =>
    intro i e h
    rw [validate_cons] at h
    by_cases h0 : argOk C sig variadic i a = true
    · rw [if_pos h0] at h
      obtain ⟨k, arg, hk, hpre, hfail, he⟩ := ih (i + 1) e h
      refine ⟨k + 1, arg, by simpa using hk, ?_, ?_, ?_⟩
      · intro m b hm hb
        cases m with
        | zero => simp at hb; subst hb; exact h0
        | succ m =>
          have := hpre m b (by omega) (by simpa using hb)
          rw [show i + (m + 1) = i + 1 + m by omega]
          exact this
      · rw [show i + (k + 1) = i + 1 + k by omega]; exact hfail
      · rw [show i + (k + 1) = i + 1 + k by omega]; exact he
    · rw [if_neg h0] at h
      refine ⟨0, a, by simp, ?_, ?_, ?_⟩
      · intro m b hm; omega
      · simpa using h0
      · simpa using h.symm

/-- Without the variadic flag no expected type exists from index `len(inTyps)` on. -/
theorem getInTyp_out_of_range {T V D : Type} (C : Collab T V D) (inTyps : Slice T)
    (inNames : Slice String) (i : Nat) (h : inTyps.len ≤ i) :
    getInTyp C inTyps inNames false i = (none, "") := by
  unfold getInTyp
  by_cases h0 : inTyps.len ≤ 0
  · rw [if_pos h0]
  · rw [if_neg h0, if_neg (by omega)]
    simp only [Bool.false_eq_true, if_false]
    rw [if_neg (by omega)]

/-- Without the variadic flag the expected type below index `len(inTyps)` is the
declared input type at that index. -/
theorem getInTyp_in_range {T V D : Type} (C : Collab T V D) (inTyps : Slice T)
    (inNames : Slice String) (i : Nat) (h : i < inTyps.len) :
    getInTyp C inTyps inNames false i = (inTyps.toList[i]?, inNames.toList.getD i "") := by
  unfold getInTyp
  rw [if_neg (by omega)]
  by_cases h1 : i < inTyps.len - 1
  · rw [if_pos h1]
  · rw [if_neg h1]
    simp only [Bool.false_eq_true, if_false]
    rw [if_pos h]

/-- Before the last declared input the expected type is the declared input type at
that index, with or without the variadic flag. -/
theorem getInTyp_before_last {T V D : Type} (C : Collab T V D) (inTyps : Slice T)
    (inNames : Slice String) (variadic : Bool) (i : Nat) (h : i < inTyps.len - 1) :
    getInTyp C inTyps inNames variadic i = (inTyps.toList[i]?, inNames.toList.getD i "") := by
  unfold getInTyp
  rw [if_neg (by omega), if_pos h]

/-- With the variadic flag the expected type from the last declared input on is the
element type of the last declared input. -/
theorem getInTyp_variadic_tail {T V D : Type} (C : Collab T V D) (inTyps : Slice T)
    (inNames : Slice String) (i : Nat) (hn : 1 ≤ inTyps.len) (h : inTyps.len - 1 ≤ i) :
    getInTyp C inTyps inNames true i =
      ((inTyps.toList[inTyps.len - 1]?).map C.Elem,
        inNames.toList.getD (inNames.len - 1) "") := by
  unfold getInTyp
  rw [if_neg (by omega), if_neg (by omega)]
  simp

/-- Whenever an expected type exists, its name is the name stored for the declared
input at index `min i (len(inTyps) - 1)`, the two lists having the same length. -/
theorem getInTyp_name {T V D : Type} (C : Collab T V D) (inTyps : Slice T)
    (inNames : Slice String) (variadic : Bool) (i : Nat) (t : T)
    (hlen : inNames.len = inTyps.len)
    (h : (getInTyp C inTyps inNames variadic i).1 = some t) :
    (getInTyp C inTyps inNames variadic i).2 =
      inNames.toList.getD (min i (inTyps.len - 1)) "" := by
  unfold getInTyp at h ⊢
  by_cases h0 : inTyps.len ≤ 0
  · rw [if_pos h0] at h; cases h
  · rw [if_neg h0] at h ⊢
    by_cases h1 : i < inTyps.len - 1
    · rw [if_pos h1]
      rw [Nat.min_eq_left (by omega)]
    · rw [if_neg h1] at h ⊢
      cases variadic with
      | true =>
        simp only [if_true]
        rw [hlen, Nat.min_eq_right (by omega)]
      | false =>
        simp only [Bool.false_eq_true, if_false] at h ⊢
        by_cases h2 : i < inTyps.len
        · rw [if_pos h2]
          rw [Nat.min_eq_left (by omega)]
        · rw [if_neg h2] at h; cases h

/-- A successful `FindFuncEntry` is a passed check followed by a successful `findFunc`. -/
theorem FindFuncEntry_ok_iff (d : DwarfRT) (name : String) (f : Function) :
    d.FindFuncEntry name = .ok f ↔ d.check = none ∧ d.findFunc name = .ok f := by
  unfold DwarfRT.FindFuncEntry
  cases hc : d.check with
  | some err => simp
  | none =>
    cases hf : d.findFunc name with
    | error err => simp
    | ok g => simp

/-- Without the variadic flag `reflect.FuncOf` returns the function type. -/
theorem FuncOf_nonvariadic {T V D : Type} (C : Collab T V D) (inTyps outTyps : Slice T) :
    FuncOf C inTyps outTyps false = .ok ⟨inTyps.toList, outTyps.toList, false⟩ := by
  simp [FuncOf]

/-- When `reflect.FuncOf` returns, its result is the function type of the given lists and
flag, and with the variadic flag there is a last input, which is a slice. -/
theorem FuncOf_ok_inv {T V D : Type} (C : Collab T V D) (inTyps outTyps : Slice T)
    (variadic : Bool) (ftyp : FuncType T) (h : FuncOf C inTyps outTyps variadic = .ok ftyp) :
    ftyp = ⟨inTyps.toList, outTyps.toList, variadic⟩ ∧
    (variadic = true → 1 ≤ inTyps.len ∧
      ∃ last, inTyps.toList[inTyps.len - 1]? = some last ∧ C.IsSlice last = true) := by
  unfold FuncOf at h
  cases variadic with
  | false =>
    simp only [Bool.false_eq_true, if_false] at h
    cases h
    exact ⟨rfl, fun h => by cases h⟩
  | true =>
    simp only [if_true] at h
    by_cases h0 : inTyps.len = 0
    · rw [if_pos h0] at h; cases h
    · rw [if_neg h0] at h
      cases hl : inTyps.toList[inTyps.len - 1]? with
      | none => rw [hl] at h; cases h
      | some last =>
        rw [hl] at h
        simp only at h
        by_cases hs : C.IsSlice last = true
        · rw [if_pos hs] at h
          cases h
          exact ⟨rfl, fun _ => ⟨by omega, last, rfl, hs⟩⟩
        · rw [if_neg hs] at h; cases h

/-- With the variadic flag `reflect.FuncOf` returns when there is a last input and it is a
slice. -/
theorem FuncOf_variadic_slice {T V D : Type} (C : Collab T V D) (inTyps outTyps : Slice T)
    (last : T) (hn : 1 ≤ inTyps.len) (hlast : inTyps.toList[inTyps.len - 1]? = some last)
    (hslice : C.IsSlice last = true) :
    FuncOf C inTyps outTyps true = .ok ⟨inTyps.toList, outTyps.toList, true⟩ := by
  unfold FuncOf
  simp only [if_true]
  rw [if_neg (by omega), hlast]
  simp only
  rw [if_pos hslice]

/-- The method `CallFunc` after a successful lookup and reconstruction, when
`reflect.FuncOf` panics: the panic is the outcome and no call is performed. -/
theorem CallFunc_of_FuncOf_panic {T V D : Type} (C : Collab T V D) (d : DwarfRT)
    (name : String) (variadic : Bool) (args : List V) (f : Function) (sig : ArgTypes T)
    (p : Panic) (hlookup : d.FindFuncEntry name = .ok f)
    (hsig : d.getFunctionArgTypes C f = .ok sig)
    (hfunc : FuncOf C sig.inTyps sig.outTyps variadic = .error p) :
    d.CallFunc C name variadic args = (.panic p, []) := by
  obtain ⟨hc, hf⟩ := (FindFuncEntry_ok_iff d name f).1 hlookup
  unfold DwarfRT.CallFunc
  rw [hc]
  simp only [hf, hsig, hfunc]

/-- The method `CallFunc` after a successful lookup and reconstruction, when
`reflect.FuncOf` returns: the validation loop decides between its error and
`newFunc.Call(args)`, which panics or enters the target. -/
theorem CallFunc_eq_validate {T V D : Type} (C : Collab T V D) (d : DwarfRT) (name : String)
    (variadic : Bool) (args : List V) (f : Function) (sig : ArgTypes T) (ftyp : FuncType T)
    (hlookup : d.FindFuncEntry name = .ok f) (hsig : d.getFunctionArgTypes C f = .ok sig)
    (hfunc : FuncOf C sig.inTyps sig.outTyps variadic = .ok ftyp) :
    d.CallFunc C name variadic args =
      match CallFunc.validate C sig.inTyps sig.inNames variadic 0 args with
      | some err => (.error err, [])
      | none =>
        match reflectCall C (CreateFuncForCodePtr ftyp f.Entry) args with
        | .error p => (.panic p, [])
        | .ok out => (.ok out, [(CreateFuncForCodePtr ftyp f.Entry, args)]) := by
  obtain ⟨hc, hf⟩ := (FindFuncEntry_ok_iff d name f).1 hlookup
  unfold DwarfRT.CallFunc
  rw [hc]
  simp only [hf, hsig, hfunc]

/-- The leading-argument check of `reflect.Value.Call` passes when every argument is
assignable to the type at its index. -/
theorem assignableAll_of_index {T V D : Type} (C : Collab T V D) :
    ∀ (xs : List V) (ts : List T),
      (∀ (k : Nat) (x : V) (t : T), xs[k]? = some x → ts[k]? = some t →
        C.AssignableTo (C.TypeOf x) t = true) →
      assignableAll C xs ts = true := by
  intro xs
  induction xs with
  | nil => intro ts _; cases ts <;> rfl
  | cons x xs ih =>
    intro ts h
    cases ts with
    | nil => rfl
    | cons t ts =>
      simp only [assignableAll, Bool.and_eq_true]
      refine ⟨h 0 x t (by simp) (by simp), ih ts ?_⟩
      intro k y u hy hu
      exact h (k + 1) y u (by simpa using hy) (by simpa using hu)

/-- When `newFunc.Call(args)` returns, the target was entered with the arguments and the
number of arguments fits the function type. -/
theorem reflectCall_ok_inv {T V D : Type} (C : Collab T V D) (fn : FuncValue T)
    (args out : List V) (h : reflectCall C fn args = .ok out) :
    out = C.Call fn args ∧
    (fn.typ.Variadic = true → fn.typ.In.length - 1 ≤ args.length) ∧
    (fn.typ.Variadic = false → args.length = fn.typ.In.length) := by
  unfold reflectCall at h
  cases hv : fn.typ.Variadic with
  | false =>
    rw [hv] at h
    simp only [Bool.false_eq_true, if_false, Bool.not_false, Bool.true_and, Bool.false_and,
      decide_eq_true_eq] at h
    by_cases h1 : args.length < fn.typ.In.length
    · rw [if_pos h1] at h; cases h
    · rw [if_neg h1] at h
      by_cases h2 : fn.typ.In.length < args.length
      · rw [if_pos h2] at h; cases h
      · rw [if_neg h2] at h
        by_cases h3 : (!assignableAll C (args.take fn.typ.In.length)
            (fn.typ.In.take fn.typ.In.length)) = true
        · rw [if_pos h3] at h; cases h
        · rw [if_neg h3] at h
          cases h
          exact ⟨rfl, fun hc => (by cases hc), fun _ => (by omega)⟩
  | true =>
    rw [hv] at h
    simp only [if_true, Bool.not_true, Bool.false_and, Bool.true_and, Bool.false_eq_true,
      if_false] at h
    by_cases h1 : args.length < fn.typ.In.length - 1
    · rw [if_pos h1] at h; cases h
    · rw [if_neg h1] at h
      by_cases h3 : (!assignableAll C (args.take (fn.typ.In.length - 1))
          (fn.typ.In.take (fn.typ.In.length - 1))) = true
      · rw [if_pos h3] at h; cases h
      · rw [if_neg h3] at h
        split at h
        · cases h
        · cases h
          exact ⟨rfl, fun _ => (by omega), fun hc => (by cases hc)⟩

/-- After the validation loop has run to the end, `newFunc.Call(args)` enters the target
when the number of arguments fits the function type. -/
theorem reflectCall_of_validated {T V D : Type} (C : Collab T V D) (sig : ArgTypes T)
    (variadic : Bool) (args : List V) (ftyp : FuncType T) (pc : Nat)
    (hfunc : FuncOf C sig.inTyps sig.outTyps variadic = .ok ftyp)
    (hval : CallFunc.validate C sig.inTyps sig.inNames variadic 0 args = none)
    (hvar : variadic = true → sig.inTyps.len - 1 ≤ args.length)
    (hfix : variadic = false → args.length = sig.inTyps.len) :
    reflectCall C (CreateFuncForCodePtr ftyp pc) args =
      .ok (C.Call (CreateFuncForCodePtr ftyp pc) args) := by
  obtain ⟨hshape, hslice⟩ := FuncOf_ok_inv C sig.inTyps sig.outTyps variadic ftyp hfunc
  subst hshape
  have hok : ∀ k arg, args[k]? = some arg → argOk C sig variadic k arg = true := by
    intro k arg hk
    have := (validate_none_iff C sig variadic args 0).1 hval k arg hk
    rw [Nat.zero_add] at this
    exact this
  have hlen : sig.inTyps.toList.length = sig.inTyps.len := rfl
  cases variadic with
  | false =>
    have hcount := hfix rfl
    have hall : assignableAll C (args.take sig.inTyps.toList.length)
        (sig.inTyps.toList.take sig.inTyps.toList.length) = true := by
      apply assignableAll_of_index
      intro k x t hx ht
      rw [List.getElem?_take] at hx ht
      by_cases hk : k < sig.inTyps.toList.length
      · rw [if_pos hk] at hx ht
        have h1 := (argOk_iff C sig false k x).1 (hok k x hx)
        obtain ⟨u, hu, ha⟩ := h1
        rw [getInTyp_in_range C sig.inTyps sig.inNames k (by omega)] at hu
        simp only at hu
        rw [ht] at hu
        cases hu
        exact ha
      · rw [if_neg hk] at hx; cases hx
    unfold reflectCall
    simp only [CreateFuncForCodePtr, Bool.false_eq_true, if_false, Bool.not_false,
      Bool.true_and, Bool.false_and, decide_eq_true_eq]
    rw [if_neg (by omega), if_neg (by omega), hall]
    simp
  | true =>
    obtain ⟨hn, last, hlast, _⟩ := hslice rfl
    have hcount := hvar rfl
    have hall : assignableAll C (args.take (sig.inTyps.toList.length - 1))
        (sig.inTyps.toList.take (sig.inTyps.toList.length - 1)) = true := by
      apply assignableAll_of_index
      intro k x t hx ht
      rw [List.getElem?_take] at hx ht
      by_cases hk : k < sig.inTyps.toList.length - 1
      · rw [if_pos hk] at hx ht
        have h1 := (argOk_iff C sig true k x).1 (hok k x hx)
        obtain ⟨u, hu, ha⟩ := h1
        rw [getInTyp_before_last C sig.inTyps sig.inNames true k (by omega)] at hu
        simp only at hu
        rw [ht] at hu
        cases hu
        exact ha
      · rw [if_neg hk] at hx; cases hx
    have htrail : (args.drop (sig.inTyps.toList.length - 1)).all (fun x =>
        match sig.inTyps.toList[sig.inTyps.toList.length - 1]? with
        | some t => C.AssignableTo (C.TypeOf x) (C.Elem t)
        | none => false) = true := by
      rw [List.all_eq_true]
      intro x hx
      obtain ⟨j, hj⟩ := List.mem_iff_getElem?.1 hx
      rw [List.getElem?_drop] at hj
      have h1 := (argOk_iff C sig true _ x).1 (hok _ x hj)
      obtain ⟨u, hu, ha⟩ := h1
      rw [getInTyp_variadic_tail C sig.inTyps sig.inNames _ hn (by omega), hlast] at hu
      simp only [Option.map_some'] at hu
      cases hu
      rw [hlen, hlast]
      exact ha
    unfold reflectCall
    simp only [CreateFuncForCodePtr, if_true, Bool.not_true, Bool.false_and, Bool.true_and]
    rw [if_neg (by omega), hall, htrail]
    simp

/-- The error of an index with an expected type is the type-mismatch error with the
name `getInTyp` returns. -/
theorem argErr_of_expected {T V D : Type} (C : Collab T V D) (sig : ArgTypes T)
    (variadic : Bool) (i : Nat) (t : T)
    (h : (getInTyp C sig.inTyps sig.inNames variadic i).1 = some t) :
    argErr C sig variadic i =
      .typeMismatch i (getInTyp C sig.inTyps sig.inNames variadic i).2 := by
  unfold argErr
  rcases hg : getInTyp C sig.inTyps sig.inNames variadic i with ⟨t2, nm⟩
  rw [hg] at h
  simp only at h
  subst h
  rfl

/-- An expected type exists only for a signature with at least one declared input. -/
theorem getInTyp_some_pos {T V D : Type} (C : Collab T V D) (inTyps : Slice T)
    (inNames : Slice String) (variadic : Bool) (i : Nat) (t : T)
    (h : (getInTyp C inTyps inNames variadic i).1 = some t) : 0 < inTyps.len := by
  by_contra h0
  unfold getInTyp at h
  rw [if_pos (by omega)] at h
  cases h

/-! ## Further lemmas on reconstruction, traversal and validation -/

/-- The parameter loop fails with the type error as soon as one record of the leading
parameter run has a type that cannot be extracted or resolved, whatever the lists
built so far. -/
theorem loop_fails_of_unresolved {T V D : Type} (C : Collab T V D) (dwarfData : Nat)
    (fname : String) :
    ∀ (reader : Reader) (acc : ArgTypes T),
      (∃ e ∈ paramRun reader, paramType C dwarfData e = none) →
      ∃ msg, getFunctionArgTypes.loop C dwarfData fname reader acc =
        .error (.argTypesTypeErr fname msg) := by
  intro reader
  induction reader with
  | nil => intro acc ⟨e, he, _⟩; simp [paramRun] at he
  | cons r reader ih =>
    intro acc ⟨e, he, hnone⟩
    obtain ⟨o, res⟩ := r
    cases res with
    | error msg => simp [paramRun] at he
    | ok child =>
      by_cases hp : child.Tag = TagFormalParameter
      · have h0 : child.Tag ≠ 0 := by rw [hp]; decide
        simp only [paramRun, if_pos hp, List.mem_cons] at he
        simp only [getFunctionArgTypes.loop]
        rw [if_neg h0, if_neg (not_not.mpr hp)]
        cases het : C.entryType dwarfData child with
        | error msg => exact ⟨msg, rfl⟩
        | ok dtyp =>
          simp only
          cases hft : C.FindType (C.dwarfTypeName dtyp) with
          | error msg => exact ⟨msg, rfl⟩
          | ok rtyp =>
            simp only
            have hchild : paramType C dwarfData child = some rtyp := by
              simp [paramType, het, hft]
            have hrest : ∃ x ∈ paramRun reader, paramType C dwarfData x = none := by
              rcases he with h | h
              · subst h; rw [hchild] at hnone; cases hnone
              · exact ⟨e, h, hnone⟩
            by_cases hr : isret child = true
            · rw [if_pos hr]; exact ih _ hrest
            · rw [if_neg hr]; exact ih _ hrest
      · simp [paramRun, hp] at he

/-- A successful `getFunctionArgTypes` is a successful run of the parameter loop from
four nil lists. -/
theorem getFunctionArgTypes_ok_loop {T V D : Type} (C : Collab T V D) (d : DwarfRT)
    (f : Function) (sig : ArgTypes T) (h : d.getFunctionArgTypes C f = .ok sig) :
    ∃ dwarfData reader,
      getFunctionArgTypes.loop C dwarfData f.Name reader ⟨.nil, .nil, .nil, .nil⟩ = .ok sig := by
  unfold DwarfRT.getFunctionArgTypes at h
  cases hoff : f.offset with
  | none => rw [hoff] at h; cases h
  | some off =>
    cases hcu : f.cu with
    | none => rw [hoff, hcu] at h; cases h
    | some cu =>
      rw [hoff, hcu] at h
      simp only at h
      cases himg : cu.image with
      | none => rw [himg] at h; cases h
      | some image =>
        rw [himg] at h
        simp only at h
        cases hdw : image.dwarf with
        | none => rw [hdw] at h; cases h
        | some dwarfData =>
          rw [hdw] at h
          simp only at h
          rcases hnext : Reader.Next (image.Seek off) with ⟨res, reader⟩
          rw [hnext] at h
          cases res with
          | error msg => cases h
          | ok oe =>
            cases oe with
            | none => cases h
            | some entry =>
              simp only at h
              by_cases htag : entry.Tag = TagSubprogram
              · rw [if_neg (not_not.mpr htag)] at h
                cases hval : entry.Val AttrName with
                | none => rw [hval] at h; cases h
                | some v =>
                  rw [hval] at h
                  cases v with
                  | str name =>
                    simp only at h
                    by_cases hname : f.Name = name
                    · rw [if_neg (not_not.mpr hname)] at h
                      exact ⟨dwarfData, reader, h⟩
                    · rw [if_pos hname] at h; cases h
                  | bool b => cases h
                  | other n => cases h
              · rw [if_pos htag] at h; cases h

/-- The parameter loop keeps the name lists as long as the type lists. -/
theorem loop_balanced {T V D : Type} (C : Collab T V D) (dwarfData : Nat) (fname : String)
    (reader : Reader) (acc sig : ArgTypes T) (hacc : Balanced acc)
    (h : getFunctionArgTypes.loop C dwarfData fname reader acc = .ok sig) : Balanced sig := by
  obtain ⟨h1, h2, h3, h4⟩ := loop_ok_inv C dwarfData fname reader acc sig h
  have l1 := congrArg List.length h1
  have l2 := congrArg List.length h2
  have l3 := congrArg List.length h3
  have l4 := congrArg List.length h4
  simp only [List.length_map, List.length_append] at l1 l2 l3 l4
  obtain ⟨ha1, ha2⟩ := hacc
  unfold Slice.len at ha1 ha2
  constructor
  · show sig.inNames.toList.length = sig.inTyps.toList.length
    omega
  · show sig.outNames.toList.length = sig.outTyps.toList.length
    omega

/-- With a usable provider the recording visitor of `ForeachFunc` receives the pairs of
the symbols with a nonzero entry address, in storage order. -/
theorem ForeachFunc_record_eq (d : DwarfRT) (hcheck : d.check = none) :
    d.ForeachFunc (fun name pc log => log ++ [(name, pc)]) [] =
      (none, (d.bi.Functions.filter (fun fn => fn.Entry != 0)).map
        (fun fn => (fn.Name, fn.Entry))) := by
  unfold DwarfRT.ForeachFunc
  rw [hcheck]
  simp only
  rw [foldl_skip_zero (fun name pc log => log ++ [(name, pc)]) d.bi.Functions [], foldl_record]
  simp

/-- A symbol `findFunc` returns is stored in the list under the name asked for, with
a nonzero entry address. -/
theorem findFunc_ok_mem (d : DwarfRT) (name : String) (fn : Function)
    (h : d.findFunc name = .ok fn) :
    fn ∈ d.bi.Functions ∧ fn.Name = name ∧ fn.Entry ≠ 0 := by
  rcases findFunc_cases d name with ⟨herr, _⟩ | ⟨j, g, hok, ⟨hj, hname, _⟩, hentry⟩
  · rw [herr] at h; cases h
  · rw [hok] at h
    cases h
    exact ⟨List.getElem?_mem hj, hname, hentry⟩

/-- The loop's error does not depend on the arguments after the first one that does not
pass. -/
theorem validate_ignores_later {T V D : Type} (C : Collab T V D) (sig : ArgTypes T)
    (variadic : Bool) (args : List V) (i : Nat) (arg : V)
    (hpre : ∀ k a, k < i → args[k]? = some a → argOk C sig variadic k a = true)
    (hi : args[i]? = some arg) (hfail : argOk C sig variadic i arg = false)
    (later : List V) :
    CallFunc.validate C sig.inTyps sig.inNames variadic 0 (args.take (i + 1) ++ later) =
      some (argErr C sig variadic i) := by
  have hlt : i < args.length := by
    by_contra hge
    rw [List.getElem?_eq_none (by omega)] at hi
    cases hi
  have hlen : (args.take (i + 1)).length = i + 1 := by
    rw [List.length_take]; omega
  have hsame : ∀ k, k < i + 1 → (args.take (i + 1) ++ later)[k]? = args[k]? := by
    intro k hk
    rw [List.getElem?_append_left (by omega), List.getElem?_take]
    simp [hk]
  apply validate_first_failure C sig variadic _ i arg
  · intro k a hk hka
    rw [hsame k (by omega)] at hka
    exact hpre k a hk hka
  · rw [hsame i (by omega)]; exact hi
  · exact hfail

/-- After the iterations over a run `pre` of formal-parameter records the loop goes on
with the lists it returns on `pre` alone. -/
theorem loop_append {T V D : Type} (C : Collab T V D) (dwarfData : Nat) (fname : String)
    (post : Reader) :
    ∀ (pre : List (Nat × Entry)) (acc mid : ArgTypes T),
      (∀ p ∈ pre, p.2.Tag = TagFormalParameter) →
      getFunctionArgTypes.loop C dwarfData fname (asRecords pre) acc = .ok mid →
      getFunctionArgTypes.loop C dwarfData fname (asRecords pre ++ post) acc =
        getFunctionArgTypes.loop C dwarfData fname post mid := by
  intro pre
  induction pre with
  | nil =>
    intro acc mid _ h
    simp only [asRecords, List.map_nil, getFunctionArgTypes.loop] at h
    cases h
    rfl
  | cons p pre ih =>
    intro acc mid hrun h
    have hp : p.2.Tag = TagFormalParameter := hrun p (List.mem_cons_self _ _)
    have hrun2 : ∀ x ∈ pre, x.2.Tag = TagFormalParameter :=
      fun x hx => hrun x (List.mem_cons_of_mem _ hx)
    have h0 : p.2.Tag ≠ 0 := by rw [hp]; decide
    have hcons : asRecords (p :: pre) = (p.1, .ok p.2) :: asRecords pre := rfl
    rw [hcons] at h ⊢
    rw [List.cons_append]
    simp only [getFunctionArgTypes.loop] at h ⊢
    rw [if_neg h0, if_neg (not_not.mpr hp)] at h ⊢
    cases het : C.entryType dwarfData p.2 with
    | error msg => rw [het] at h; cases h
    | ok dtyp =>
      rw [het] at h
      simp only at h ⊢
      cases hft : C.FindType (C.dwarfTypeName dtyp) with
      | error msg => rw [hft] at h; cases h
      | ok rtyp =>
        rw [hft] at h
        simp only at h ⊢
        by_cases hr : isret p.2 = true
        · rw [if_pos hr] at h ⊢; exact ih _ _ hrun2 h
        · rw [if_neg hr] at h ⊢; exact ih _ _ hrun2 h

/-- The method `getFunctionArgTypes` on a function whose reflected fields are present
and whose offset holds a bad record: it returns the error of that record. -/
theorem getFunctionArgTypes_bad_head {T V D : Type} (C : Collab T V D) (d : DwarfRT)
    (f : Function) (off : Nat) (cu : CompileUnit) (image : Image) (dwarfData : Nat)
    (hoff : f.offset = some off) (hcu : f.cu = some cu) (himg : cu.image = some image)
    (hdw : image.dwarf = some dwarfData)
    (hbad : BadHead f (Reader.Next (image.Seek off)).1) :
    d.getFunctionArgTypes C f = .error (headError f (Reader.Next (image.Seek off)).1) := by
  unfold DwarfRT.getFunctionArgTypes
  rw [hoff, hcu]
  simp only [himg, hdw]
  rcases hnext : Reader.Next (image.Seek off) with ⟨res, reader⟩
  rw [hnext] at hbad
  cases res with
  | error msg => rfl
  | ok oe =>
    cases oe with
    | none => rfl
    | some entry =>
      simp only [headError]
      by_cases htag : entry.Tag = TagSubprogram
      · rw [if_neg (not_not.mpr htag), if_neg (not_not.mpr htag)]
        cases hval : entry.Val AttrName with
        | none => rfl
        | some v =>
          cases v with
          | str name =>
            simp only
            have hne : f.Name ≠ name := by
              rcases hbad with h | h | ⟨s, hs, hne⟩
              · exact absurd htag h
              · exact absurd hval (h name)
              · rw [hval] at hs
                cases hs
                exact fun h => hne h.symm
            rw [if_pos hne]
          | bool b => rfl
          | other n => rfl
      · rw [if_pos htag, if_pos htag]

/-! ## The claims -/

/-- C1 (counterexample): in the list `[("add", 0x1000), ("add", 0)]` the name `add`
occurs at indices `0 < 1` and at no later index, the provider is usable, and yet
`FindFuncEntry("add")` does not return the symbol stored at index `1`: it fails with
`ErrNotFound`, as does `FindFuncPc("add")`. -/
theorem C1_counterexample_later_entry_zero :
    (Demo.rtOf [Demo.sym "add" 0x1000 0, Demo.sym "add" 0 0]).check = none ∧
    [Demo.sym "add" 0x1000 0, Demo.sym "add" 0 0][0]? = some (Demo.sym "add" 0x1000 0) ∧
    (Demo.sym "add" 0x1000 0).Name = "add" ∧
    LastOccurrence [Demo.sym "add" 0x1000 0, Demo.sym "add" 0 0] "add" 1 (Demo.sym "add" 0 0) ∧
    (Demo.rtOf [Demo.sym "add" 0x1000 0, Demo.sym "add" 0 0]).FindFuncEntry "add"
      = .error .ErrNotFound ∧
    (Demo.rtOf [Demo.sym "add" 0x1000 0, Demo.sym "add" 0 0]).FindFuncEntry "add"
      ≠ .ok (Demo.sym "add" 0 0) ∧
    (Demo.rtOf [Demo.sym "add" 0x1000 0, Demo.sym "add" 0 0]).FindFuncPc "add"
      = .error .ErrNotFound := by
  refine ⟨rfl, rfl, rfl, ⟨rfl, rfl, ?_⟩, rfl, ?_, rfl⟩
  · intro m g h1 hmg
    match m, h1, hmg with
    | m + 2, _, hmg => simp at hmg
  · intro h
    cases h

/-- C1 (amended): with a usable provider, when a name occurs at two indices `i < j`
and at no index after `j`, and the symbol at `j` has a nonzero entry address,
`FindFuncEntry(name)` returns the symbol stored at index `j` and `FindFuncPc(name)`
returns that symbol's entry address. -/
theorem FindFunc_shadowing_returns_later (d : DwarfRT) (name : String) (i j : Nat)
    (fi fj : Function) (hcheck : d.check = none) (_hij : i < j)
    (_hi : d.bi.Functions[i]? = some fi) (_hname : fi.Name = name)
    (hj : LastOccurrence d.bi.Functions name j fj) (hentry : fj.Entry ≠ 0) :
    d.FindFuncEntry name = .ok fj ∧ d.FindFuncPc name = .ok fj.Entry := by
  have hf : d.findFunc name = .ok fj := by
    rw [findFunc_of_last d name j fj hj]
    simp [hentry]
  constructor
  · rw [FindFuncEntry_eq_findFunc d name hcheck, hf]
  · rw [FindFuncPc_eq_findFunc d name hcheck, hf]
    rfl

/-- C1 (witness): for the list `[("add", 0x1000), ("add", 0x2000)]`,
`FindFuncEntry("add")` is the symbol at index `1` and `FindFuncPc("add")` is `0x2000`. -/
theorem FindFunc_shadowing_returns_later_witness :
    (Demo.rtOf [Demo.sym "add" 0x1000 0, Demo.sym "add" 0x2000 0]).FindFuncEntry "add"
      = .ok (Demo.sym "add" 0x2000 0) ∧
    (Demo.rtOf [Demo.sym "add" 0x1000 0, Demo.sym "add" 0x2000 0]).FindFuncPc "add"
      = .ok 0x2000 :=
  FindFunc_shadowing_returns_later
    (Demo.rtOf [Demo.sym "add" 0x1000 0, Demo.sym "add" 0x2000 0]) "add" 0 1
    (Demo.sym "add" 0x1000 0) (Demo.sym "add" 0x2000 0) rfl (by decide) rfl rfl
    ⟨rfl, rfl, fun m g h1 hmg => by
      have hmg2 : [Demo.sym "add" 0x1000 0, Demo.sym "add" 0x2000 0][m]? = some g := hmg
      match m, h1, hmg2 with
      | m + 2, _, hmg2 => simp at hmg2⟩
    (by decide)

/-- C2: with a usable provider, `FindFuncEntry` and `FindFuncPc` fail with `ErrNotFound`
exactly when the name does not occur in the list or its last occurrence has entry
address `0`; they fail with no other error; and a successful lookup never yields a
symbol or an address whose entry address is `0`. -/
theorem FindFunc_notFound_iff (d : DwarfRT) (name : String) (hcheck : d.check = none) :
    (d.FindFuncEntry name = .error .ErrNotFound ↔ Unresolvable d.bi.Functions name) ∧
    (d.FindFuncPc name = .error .ErrNotFound ↔ Unresolvable d.bi.Functions name) ∧
    (∀ e, d.FindFuncEntry name = .error e → e = .ErrNotFound) ∧
    (∀ e, d.FindFuncPc name = .error e → e = .ErrNotFound) ∧
    (∀ f, d.FindFuncEntry name = .ok f → f.Entry ≠ 0) ∧
    (∀ pc, d.FindFuncPc name = .ok pc → pc ≠ 0) := by
  rw [FindFuncEntry_eq_findFunc d name hcheck, FindFuncPc_eq_findFunc d name hcheck]
  rcases findFunc_cases d name with ⟨herr, hun⟩ | ⟨j, fn, hok, _, hentry⟩
  · rw [herr]
    refine ⟨⟨fun _ => hun, fun _ => rfl⟩, ⟨fun _ => hun, fun _ => rfl⟩, ?_, ?_, ?_, ?_⟩
    · intro e h; cases h; rfl
    · intro e h; cases h; rfl
    · intro f h; cases h
    · intro pc h; cases h
  · have hnot : ¬ Unresolvable d.bi.Functions name := by
      intro hun
      rw [findFunc_of_unresolvable d name hun] at hok
      cases hok
    rw [hok]
    refine ⟨⟨fun h => (by cases h), fun h => absurd h hnot⟩,
      ⟨fun h => (by cases h), fun h => absurd h hnot⟩, ?_, ?_, ?_, ?_⟩
    · intro e h; cases h
    · intro e h; cases h
    · intro f h; cases h; exact hentry
    · intro pc h; cases h; exact hentry

/-- C2 (witness): in the list `[("add", 0x1000), ("add", 0)]` the name `add` fails with
`ErrNotFound`, its last occurrence having entry address `0`. -/
theorem FindFunc_notFound_iff_witness :
    ((Demo.rtOf [Demo.sym "add" 0x1000 0, Demo.sym "add" 0 0]).FindFuncEntry "add"
        = .error .ErrNotFound ↔
      Unresolvable [Demo.sym "add" 0x1000 0, Demo.sym "add" 0 0] "add") ∧
    ((Demo.rtOf [Demo.sym "add" 0x1000 0, Demo.sym "add" 0 0]).FindFuncPc "add"
        = .error .ErrNotFound ↔
      Unresolvable [Demo.sym "add" 0x1000 0, Demo.sym "add" 0 0] "add") :=
  ⟨(FindFunc_notFound_iff (Demo.rtOf [Demo.sym "add" 0x1000 0, Demo.sym "add" 0 0])
      "add" rfl).1,
   (FindFunc_notFound_iff (Demo.rtOf [Demo.sym "add" 0x1000 0, Demo.sym "add" 0 0])
      "add" rfl).2.1⟩

/-- C3 (counterexample): in the list `[("add", 0x1000), ("add", 0x2000)]` the symbol at
index `0` is registered with the nonzero entry address `0x1000`, and yet
`FindFuncEntry("add")` returns the symbol at index `1`, whose entry address `0x2000`
is not the address stored for the symbol at index `0`. -/
theorem C3_counterexample_shadowed_symbol :
    [Demo.sym "add" 0x1000 0, Demo.sym "add" 0x2000 0][0]? = some (Demo.sym "add" 0x1000 0) ∧
    (Demo.sym "add" 0x1000 0).Entry ≠ 0 ∧
    (Demo.rtOf [Demo.sym "add" 0x1000 0, Demo.sym "add" 0x2000 0]).check = none ∧
    (Demo.rtOf [Demo.sym "add" 0x1000 0, Demo.sym "add" 0x2000 0]).FindFuncEntry
      (Demo.sym "add" 0x1000 0).Name = .ok (Demo.sym "add" 0x2000 0) ∧
    (Demo.sym "add" 0x2000 0).Entry ≠ (Demo.sym "add" 0x1000 0).Entry :=
  ⟨rfl, by decide, rfl, rfl, by decide⟩

/-- C3 (amended): with a usable provider, for every symbol registered in the list with a
nonzero entry address and not followed by a later symbol of the same name,
`FindFuncEntry` called with that symbol's name succeeds and returns a symbol whose name
equals that name and whose entry address equals the address stored for that symbol;
the returned symbol is that very symbol. -/
theorem FindFuncEntry_registered_unshadowed (d : DwarfRT) (f : Function) (j : Nat)
    (hcheck : d.check = none) (hj : LastOccurrence d.bi.Functions f.Name j f)
    (hentry : f.Entry ≠ 0) :
    ∃ g, d.FindFuncEntry f.Name = .ok g ∧ g.Name = f.Name ∧ g.Entry = f.Entry ∧ g = f := by
  refine ⟨f, ?_, rfl, rfl, rfl⟩
  rw [FindFuncEntry_eq_findFunc d f.Name hcheck, findFunc_of_last d f.Name j f hj]
  simp [hentry]

/-- C3 (witness): every symbol of the concrete provider is found under its name; here
`total`, stored at index `2` with entry address `0x3000`. -/
theorem FindFuncEntry_registered_unshadowed_witness :
    ∃ g, Demo.rt.FindFuncEntry "total" = .ok g ∧ g.Name = "total" ∧ g.Entry = 0x3000 ∧
      g = Demo.sym "total" 0x3000 300 :=
  FindFuncEntry_registered_unshadowed Demo.rt (Demo.sym "total" 0x3000 300) 2 rfl
    ⟨rfl, rfl, fun m g h1 hmg => by
      have hmg2 : [Demo.sym "sum" 0x1000 100, Demo.sym "show" 0x2000 200,
          Demo.sym "total" 0x3000 300][m]? = some g := hmg
      match m, h1, hmg2 with
      | m + 3, _, hmg2 => simp at hmg2⟩
    (by decide)

/-- C4 (counterexample): `sum(a int, b int) int` has two declared inputs and the call is
not variadic; with the three arguments `(string, int, int)` `CallFunc` does not fail
with the arity error at index `2` but with the type-mismatch error at index `0`. -/
theorem C4_counterexample_earlier_type_mismatch :
    Demo.rt.FindFuncEntry "sum" = .ok (Demo.sym "sum" 0x1000 100) ∧
    (Demo.rt.getFunctionArgTypes Demo.collab (Demo.sym "sum" 0x1000 100)).map
      (fun sig => sig.inTyps.len) = .ok 2 ∧
    2 < ([⟨.string, 3⟩, ⟨.int, 4⟩, ⟨.int, 5⟩] : List Demo.Val).length ∧
    Demo.rt.CallFunc Demo.collab "sum" false [⟨.string, 3⟩, ⟨.int, 4⟩, ⟨.int, 5⟩]
      = (.error (.typeMismatch 0 "int"), []) ∧
    (Demo.rt.CallFunc Demo.collab "sum" false [⟨.string, 3⟩, ⟨.int, 4⟩, ⟨.int, 5⟩]).1
      ≠ .error (.lenMismatch 2) :=
  ⟨rfl, rfl, by decide, rfl, fun h =>
    absurd (show (Result.error (Error.typeMismatch 0 "int") : Result (List Demo.Val))
      = Result.error (Error.lenMismatch 2) from h) (by simp)⟩

/-- C4 (amended): for every non-variadic reconstructed signature with `n` declared
inputs and every argument list with more than `n` arguments, `CallFunc` fails and
performs no call; the error is the arity error with index `n` or the type-mismatch error
of an index below `n`, and it is the arity error with index `n` whenever each of the
first `n` arguments is assignable to the declared input type at its index. -/
theorem CallFunc_too_many_arguments {T V D : Type} (C : Collab T V D) (d : DwarfRT)
    (name : String) (args : List V) (f : Function) (sig : ArgTypes T)
    (hlookup : d.FindFuncEntry name = .ok f) (hsig : d.getFunctionArgTypes C f = .ok sig)
    (hlen : sig.inTyps.len < args.length) :
    (∃ e, d.CallFunc C name false args = (.error e, []) ∧
      (e = .lenMismatch sig.inTyps.len ∨
        ∃ k inName, k < sig.inTyps.len ∧ e = .typeMismatch k inName)) ∧
    ((∀ (k : Nat) (arg : V) (t : T), args[k]? = some arg → sig.inTyps.toList[k]? = some t →
        C.AssignableTo (C.TypeOf arg) t = true) →
      d.CallFunc C name false args = (.error (.lenMismatch sig.inTyps.len), [])) := by
  rw [CallFunc_eq_validate C d name false args f sig _ hlookup hsig
    (FuncOf_nonvariadic C sig.inTyps sig.outTyps)]
  have hn : args[sig.inTyps.len]? = some (args[sig.inTyps.len]) :=
    List.getElem?_eq_getElem hlen
  have hfailn : argOk C sig false sig.inTyps.len (args[sig.inTyps.len]) = false := by
    unfold argOk
    rw [getInTyp_out_of_range C sig.inTyps sig.inNames _ (Nat.le_refl _)]
  have herrn : argErr C sig false sig.inTyps.len = .lenMismatch sig.inTyps.len := by
    unfold argErr
    rw [getInTyp_out_of_range C sig.inTyps sig.inNames _ (Nat.le_refl _)]
  constructor
  · cases hv : CallFunc.validate C sig.inTyps sig.inNames false 0 args with
    | none =>
      have := (validate_none_iff C sig false args 0).1 hv _ _ hn
      rw [Nat.zero_add, hfailn] at this
      cases this
    | some e =>
      refine ⟨e, rfl, ?_⟩
      obtain ⟨k, arg, hk, hpre, hfail, he⟩ := validate_some_inv C sig false args 0 e hv
      rw [Nat.zero_add] at hfail he
      have hkn : k ≤ sig.inTyps.len := by
        by_contra hgt
        have := hpre _ _ (by omega) hn
        rw [Nat.zero_add, hfailn] at this
        cases this
      by_cases heq : k = sig.inTyps.len
      · left; rw [he, heq, herrn]
      · right
        have hlt : k < sig.inTyps.len := by omega
        have hlt2 : k < sig.inTyps.toList.length := hlt
        refine ⟨k, sig.inNames.toList.getD k "", hlt, ?_⟩
        rw [he]
        unfold argErr
        rw [getInTyp_in_range C sig.inTyps sig.inNames k hlt, List.getElem?_eq_getElem hlt2]
  · intro hassign
    rw [validate_first_failure C sig false args sig.inTyps.len _ ?_ hn hfailn, herrn]
    intro k a hk hka
    have hk2 : k < sig.inTyps.toList.length := hk
    rw [argOk_iff]
    refine ⟨sig.inTyps.toList[k], ?_, ?_⟩
    · rw [getInTyp_in_range C sig.inTyps sig.inNames k hk, List.getElem?_eq_getElem hk2]
    · exact hassign k a _ hka (List.getElem?_eq_getElem hk2)

/-- C4 (witness): `sum(a int, b int) int` called with `(3, 4, 5)` fails with the arity
error at index `2` and performs no call. -/
theorem CallFunc_too_many_arguments_witness :
    Demo.rt.CallFunc Demo.collab "sum" false [⟨.int, 3⟩, ⟨.int, 4⟩, ⟨.int, 5⟩]
      = (.error (.lenMismatch 2), []) :=
  (CallFunc_too_many_arguments Demo.collab Demo.rt "sum" [⟨.int, 3⟩, ⟨.int, 4⟩, ⟨.int, 5⟩]
    (Demo.sym "sum" 0x1000 100) ⟨.mk [.int, .int], .mk [.int], .mk ["int", "int"], .mk ["int"]⟩
    rfl rfl (by decide)).2
    (fun k arg t hk ht => by
      have ht2 : ([.int, .int] : List Demo.Ty)[k]? = some t := ht
      match k, hk, ht2 with
      | 0, hk, ht2 => simp at hk ht2; subst hk; subst ht2; rfl
      | 1, hk, ht2 => simp at hk ht2; subst hk; subst ht2; rfl
      | k + 2, hk, ht2 => simp at ht2)

/-- C5 (counterexample): `sum(a int, b int) int` called with `(string, string)`.  Neither
argument is assignable to its expected type `int`, and the formal-parameter records of
the two inputs carry the names `a` and `b`; `CallFunc` fails with the type-mismatch
error of index `0` carrying the type name `int`, which is neither the error for
index `0` with the parameter name `a` nor the error for index `1` with the parameter
name `b`. -/
theorem C5_counterexample_type_name_not_parameter_name :
    Demo.rt.FindFuncEntry "sum" = .ok (Demo.sym "sum" 0x1000 100) ∧
    (Demo.rt.getFunctionArgTypes Demo.collab (Demo.sym "sum" 0x1000 100)).map
      (fun sig => (sig.inTyps.toList, sig.inNames.toList)) = .ok ([.int, .int], ["int", "int"]) ∧
    (inputsOf (paramRun Demo.image.records.tail)).map (fun e => e.Val AttrName)
      = [some (.str "a"), some (.str "b")] ∧
    (getInTyp Demo.collab Demo.sumSig.inTyps Demo.sumSig.inNames false 0).1 = some .int ∧
    (getInTyp Demo.collab Demo.sumSig.inTyps Demo.sumSig.inNames false 1).1 = some .int ∧
    Demo.collab.AssignableTo (Demo.collab.TypeOf ⟨.string, 0⟩) .int = false ∧
    Demo.rt.CallFunc Demo.collab "sum" false [⟨.string, 0⟩, ⟨.string, 0⟩]
      = (.error (.typeMismatch 0 "int"), []) ∧
    (Demo.rt.CallFunc Demo.collab "sum" false [⟨.string, 0⟩, ⟨.string, 0⟩]).1
      ≠ .error (.typeMismatch 0 "a") ∧
    (Demo.rt.CallFunc Demo.collab "sum" false [⟨.string, 0⟩, ⟨.string, 0⟩]).1
      ≠ .error (.typeMismatch 1 "b") :=
  ⟨rfl, rfl, rfl, rfl, rfl, rfl, rfl,
    fun h => absurd (show (Result.error (Error.typeMismatch 0 "int") :
      Result (List Demo.Val)) = Result.error (Error.typeMismatch 0 "a") from h) (by simp),
    fun h => absurd (show (Result.error (Error.typeMismatch 0 "int") :
      Result (List Demo.Val)) = Result.error (Error.typeMismatch 1 "b") from h) (by simp)⟩

/-- C5 (amended): for every reconstructed signature and argument list for which
`reflect.FuncOf` returns (line 95: the flag is false, or the last input is a slice), when
`i` is the first index whose argument does not pass validation and an expected type
exists for `i` to which the argument is not assignable, `CallFunc` fails with the
type-mismatch error
carrying `i` and the canonical type name of the expected parameter, that is the name
`dwarfTypeName` gives for the declared type of the input record at index
`min i (n - 1)` (the record at `i` for a positional argument, the last declared input for
variadic trailing arguments), and performs no call. -/
theorem CallFunc_type_mismatch_reports_type_name {T V D : Type} (C : Collab T V D)
    (d : DwarfRT) (name : String) (variadic : Bool) (args : List V) (f : Function)
    (sig : ArgTypes T) (off : Nat) (cu : CompileUnit) (image : Image) (dwarfData o : Nat)
    (sub : Entry) (rest : Reader) (i : Nat) (arg : V) (t : T) (ftyp : FuncType T)
    (hlookup : d.FindFuncEntry name = .ok f)
    (hoff : f.offset = some off) (hcu : f.cu = some cu) (himg : cu.image = some image)
    (hdw : image.dwarf = some dwarfData) (hseek : image.Seek off = (o, .ok sub) :: rest)
    (htag : sub.Tag = TagSubprogram) (hname : sub.Val AttrName = some (.str f.Name))
    (hsig : d.getFunctionArgTypes C f = .ok sig)
    (hfunc : FuncOf C sig.inTyps sig.outTyps variadic = .ok ftyp)
    (hpre : ∀ (k : Nat) (a : V), k < i → args[k]? = some a →
      ∃ u, (getInTyp C sig.inTyps sig.inNames variadic k).1 = some u ∧
        C.AssignableTo (C.TypeOf a) u = true)
    (hi : args[i]? = some arg)
    (hexp : (getInTyp C sig.inTyps sig.inNames variadic i).1 = some t)
    (hna : C.AssignableTo (C.TypeOf arg) t = false) :
    ∃ rec, (inputsOf (paramRun rest))[min i (sig.inTyps.len - 1)]? = some rec ∧
      d.CallFunc C name variadic args =
        (.error (.typeMismatch i (paramTypeName C dwarfData rec)), []) := by
  have hloop : getFunctionArgTypes.loop C dwarfData f.Name rest ⟨.nil, .nil, .nil, .nil⟩
      = .ok sig := by
    rw [← getFunctionArgTypes_eq_loop C d f off cu image dwarfData o sub rest hoff hcu himg
      hdw hseek htag hname]
    exact hsig
  obtain ⟨h1a, _, h3a, _⟩ := loop_ok_inv C dwarfData f.Name rest _ sig hloop
  have h1 : sig.inTyps.toList.map some =
      (inputsOf (paramRun rest)).map (paramType C dwarfData) := h1a
  have h3 : sig.inNames.toList =
      (inputsOf (paramRun rest)).map (paramTypeName C dwarfData) := h3a
  have hlenT : sig.inTyps.len = (inputsOf (paramRun rest)).length := by
    have := congrArg List.length h1
    simpa [Slice.len] using this
  have hlenN : sig.inNames.len = sig.inTyps.len := by
    rw [hlenT]
    simp [Slice.len, h3]
  have hpos : 0 < sig.inTyps.len := getInTyp_some_pos C _ _ variadic i t hexp
  have hidx : min i (sig.inTyps.len - 1) < (inputsOf (paramRun rest)).length := by
    rw [← hlenT]
    have := Nat.min_le_right i (sig.inTyps.len - 1)
    omega
  refine ⟨(inputsOf (paramRun rest))[min i (sig.inTyps.len - 1)],
    List.getElem?_eq_getElem hidx, ?_⟩
  have hfail : argOk C sig variadic i arg = false := by
    unfold argOk
    rw [hexp]
    exact hna
  have hpre2 : ∀ k a, k < i → args[k]? = some a → argOk C sig variadic k a = true :=
    fun k a hk hka => (argOk_iff C sig variadic k a).2 (hpre k a hk hka)
  rw [CallFunc_eq_validate C d name variadic args f sig ftyp hlookup hsig hfunc,
    validate_first_failure C sig variadic args i arg hpre2 hi hfail,
    argErr_of_expected C sig variadic i t hexp,
    getInTyp_name C sig.inTyps sig.inNames variadic i t hlenN hexp, h3]
  simp [List.getD_eq_getElem?_getD, List.getElem?_eq_getElem hidx]

/-- C5 (witness): `sum(a int, b int) int` called with `(int, string)` fails at index `1`
with the type name of the second input record. -/
theorem CallFunc_type_mismatch_reports_type_name_witness :
    ∃ rec, (inputsOf (paramRun Demo.image.records.tail))[1]? = some rec ∧
      Demo.rt.CallFunc Demo.collab "sum" false [⟨.int, 3⟩, ⟨.string, 0⟩] =
        (.error (.typeMismatch 1 (paramTypeName Demo.collab 0 rec)), []) :=
  CallFunc_type_mismatch_reports_type_name Demo.collab Demo.rt "sum" false
    [⟨.int, 3⟩, ⟨.string, 0⟩] (Demo.sym "sum" 0x1000 100) Demo.sumSig 100
    ⟨some Demo.image⟩ Demo.image 0 100 ⟨100, TagSubprogram, [⟨AttrName, .str "sum"⟩]⟩
    Demo.image.records.tail 1 ⟨.string, 0⟩ .int ⟨[.int, .int], [.int], false⟩
    rfl rfl rfl rfl rfl rfl rfl rfl rfl rfl
    (fun k a hk hka => by
      match k, hk, hka with
      | 0, _, hka => simp at hka; subst hka; exact ⟨.int, rfl, rfl⟩)
    rfl rfl rfl

/-- C6 (counterexample): for `sum(a int, b int) int` lookup and reconstruction succeed.
With the single argument `(3)` and `variadic = false` every argument index has an
expected type to which the argument is assignable, and yet no call is performed:
`newFunc.Call` panics on too few arguments.  With no argument and `variadic = true` the
same holds, every argument index passing trivially: `reflect.FuncOf` panics, the last
input `int` being no slice. -/
theorem C6_counterexample_validated_not_called :
    Demo.rt.FindFuncEntry "sum" = .ok (Demo.sym "sum" 0x1000 100) ∧
    Demo.rt.getFunctionArgTypes Demo.collab (Demo.sym "sum" 0x1000 100) = .ok Demo.sumSig ∧
    (∀ (i : Nat) (arg : Demo.Val), ([⟨.int, 3⟩] : List Demo.Val)[i]? = some arg →
      ∃ t, (getInTyp Demo.collab Demo.sumSig.inTyps Demo.sumSig.inNames false i).1 = some t ∧
        Demo.collab.AssignableTo (Demo.collab.TypeOf arg) t = true) ∧
    Demo.rt.CallFunc Demo.collab "sum" false [⟨.int, 3⟩] = (.panic .callTooFew, []) ∧
    (∀ (i : Nat) (arg : Demo.Val), ([] : List Demo.Val)[i]? = some arg →
      ∃ t, (getInTyp Demo.collab Demo.sumSig.inTyps Demo.sumSig.inNames true i).1 = some t ∧
        Demo.collab.AssignableTo (Demo.collab.TypeOf arg) t = true) ∧
    Demo.rt.CallFunc Demo.collab "sum" true [] = (.panic .funcOfVariadic, []) := by
  refine ⟨rfl, rfl, ?_, rfl, ?_, rfl⟩
  · intro i arg hi
    match i, hi with
    | 0, hi => simp at hi; subst hi; exact ⟨.int, rfl, rfl⟩
    | i + 1, hi => simp at hi
  · intro i arg hi
    simp at hi

/-- C6 (amended): `CallFunc` performs the native call only after every supplied argument
has passed validation.  A call is performed if and only if lookup and signature
reconstruction succeed, `reflect.FuncOf` returns for the signature and the flag, every
argument index has an expected type to which the argument's type is assignable, and
the number of arguments fits the function type (at least `n - 1` with the variadic flag,
exactly `n` without); whenever `CallFunc` returns an error or does not return, no call
has been performed; and on success exactly one call has been performed, on the callable
bound to the symbol's entry address with the arguments as given, and the returned
results are the outputs of that call. -/
theorem CallFunc_calls_iff_validated {T V D : Type} (C : Collab T V D) (d : DwarfRT)
    (name : String) (variadic : Bool) (args : List V) :
    ((d.CallFunc C name variadic args).2 ≠ [] ↔
      ∃ f sig ftyp, d.FindFuncEntry name = .ok f ∧ d.getFunctionArgTypes C f = .ok sig ∧
        FuncOf C sig.inTyps sig.outTyps variadic = .ok ftyp ∧
        (∀ (i : Nat) (arg : V), args[i]? = some arg →
          ∃ t, (getInTyp C sig.inTyps sig.inNames variadic i).1 = some t ∧
            C.AssignableTo (C.TypeOf arg) t = true) ∧
        (variadic = true → sig.inTyps.len - 1 ≤ args.length) ∧
        (variadic = false → args.length = sig.inTyps.len)) ∧
    (∀ e, (d.CallFunc C name variadic args).1 = .error e →
      (d.CallFunc C name variadic args).2 = []) ∧
    (∀ p, (d.CallFunc C name variadic args).1 = .panic p →
      (d.CallFunc C name variadic args).2 = []) ∧
    (∀ out, (d.CallFunc C name variadic args).1 = .ok out →
      ∃ f sig ftyp, d.FindFuncEntry name = .ok f ∧ d.getFunctionArgTypes C f = .ok sig ∧
        FuncOf C sig.inTyps sig.outTyps variadic = .ok ftyp ∧
        (d.CallFunc C name variadic args).2 = [(CreateFuncForCodePtr ftyp f.Entry, args)] ∧
        out = C.Call (CreateFuncForCodePtr ftyp f.Entry) args) := by
  cases hlookup : d.FindFuncEntry name with
  | error err =>
    have hcall : d.CallFunc C name variadic args = (.error err, []) := by
      unfold DwarfRT.FindFuncEntry at hlookup
      unfold DwarfRT.CallFunc
      cases hc : d.check with
      | some e0 => rw [hc] at hlookup; simp only at hlookup ⊢; cases hlookup; rfl
      | none =>
        rw [hc] at hlookup
        cases hf : d.findFunc name with
        | error e0 => rw [hf] at hlookup; simp only at hlookup ⊢; cases hlookup; rfl
        | ok g => rw [hf] at hlookup; cases hlookup
    rw [hcall]
    refine ⟨⟨fun h => absurd rfl h, ?_⟩, fun _ _ => rfl, fun _ _ => rfl, ?_⟩
    · rintro ⟨f, sig, ftyp, h, _⟩; cases h
    · intro out h; cases h
  | ok f =>
    obtain ⟨hc, hf⟩ := (FindFuncEntry_ok_iff d name f).1 hlookup
    cases hsig : d.getFunctionArgTypes C f with
    | error err =>
      have hcall : d.CallFunc C name variadic args = (.error err, []) := by
        unfold DwarfRT.CallFunc
        rw [hc]
        simp only [hf, hsig]
      rw [hcall]
      refine ⟨⟨fun h => absurd rfl h, ?_⟩, fun _ _ => rfl, fun _ _ => rfl, ?_⟩
      · rintro ⟨g, sig, ftyp, hg, hs, _⟩
        cases hg
        rw [hsig] at hs
        cases hs
      · intro out h; cases h
    | ok sig =>
      cases hfunc : FuncOf C sig.inTyps sig.outTyps variadic with
      | error p =>
        rw [CallFunc_of_FuncOf_panic C d name variadic args f sig p hlookup hsig hfunc]
        refine ⟨⟨fun h => absurd rfl h, ?_⟩, fun _ _ => rfl, fun _ _ => rfl, ?_⟩
        · rintro ⟨g, sig2, ftyp, hg, hs, hfo, _⟩
          cases hg
          rw [hsig] at hs
          cases hs
          rw [hfunc] at hfo
          cases hfo
        · intro out h; cases h
      | ok ftyp =>
        rw [CallFunc_eq_validate C d name variadic args f sig ftyp hlookup hsig hfunc]
        cases hv : CallFunc.validate C sig.inTyps sig.inNames variadic 0 args with
        | some err =>
          refine ⟨⟨fun h => absurd rfl h, ?_⟩, fun _ _ => rfl, fun _ _ => rfl, ?_⟩
          · rintro ⟨g, sig2, ftyp2, hg, hs, _, hall, _⟩
            cases hg
            rw [hsig] at hs
            cases hs
            have hnone : CallFunc.validate C sig.inTyps sig.inNames variadic 0 args = none := by
              apply (validate_none_iff C sig variadic args 0).2
              intro k arg hk
              rw [Nat.zero_add]
              exact (argOk_iff C sig variadic k arg).2 (hall k arg hk)
            rw [hv] at hnone
            cases hnone
          · intro out h; cases h
        | none =>
          have hshape := (FuncOf_ok_inv C sig.inTyps sig.outTyps variadic ftyp hfunc).1
          have hin : ftyp.In.length = sig.inTyps.len := by rw [hshape]; rfl
          have hvar : ftyp.Variadic = variadic := by rw [hshape]
          cases hrc : reflectCall C (CreateFuncForCodePtr ftyp f.Entry) args with
          | error p =>
            refine ⟨⟨fun h => absurd rfl h, ?_⟩, fun _ _ => rfl, fun _ _ => rfl, ?_⟩
            · rintro ⟨g, sig2, ftyp2, hg, hs, hfo, _, hcv, hcf⟩
              cases hg
              rw [hsig] at hs
              cases hs
              rw [hfunc] at hfo
              cases hfo
              rw [reflectCall_of_validated C sig variadic args ftyp f.Entry hfunc hv hcv hcf]
                at hrc
              cases hrc
            · intro out h; cases h
          | ok out =>
            obtain ⟨hout, hcv, hcf⟩ :=
              reflectCall_ok_inv C (CreateFuncForCodePtr ftyp f.Entry) args out hrc
            refine ⟨⟨fun _ => ⟨f, sig, ftyp, rfl, hsig, hfunc, ?_, ?_, ?_⟩, fun _ => by simp⟩,
              ?_, ?_, ?_⟩
            · intro i arg hi
              have := (validate_none_iff C sig variadic args 0).1 hv i arg hi
              rw [Nat.zero_add] at this
              exact (argOk_iff C sig variadic i arg).1 this
            · intro hvt
              have := hcv (by simpa [CreateFuncForCodePtr, hvar] using hvt)
              simpa [CreateFuncForCodePtr, hin] using this
            · intro hvf
              have := hcf (by simpa [CreateFuncForCodePtr, hvar] using hvf)
              simpa [CreateFuncForCodePtr, hin] using this
            · intro e h; cases h
            · intro p h; cases h
            · intro out2 h
              cases h
              exact ⟨f, sig, ftyp, rfl, hsig, hfunc, rfl, hout⟩

/-- C7 (counterexample): `pair(p [2]int)` has one declared input, an array, a collection
type with element type `int`; with `variadic = true` and the single argument `(1)`, which
is assignable to `int`, no call is performed: `reflect.FuncOf` panics, the last input
being no slice. -/
theorem C7_counterexample_array_not_slice :
    Demo.rt3.FindFuncEntry "pair" = .ok (Demo.sym3 "pair" 0x6000 100) ∧
    (Demo.rt3.getFunctionArgTypes Demo.collab (Demo.sym3 "pair" 0x6000 100)).map
      (fun sig => sig.inTyps.toList) = .ok [.arrayInt] ∧
    Demo.collab.Elem .arrayInt = .int ∧
    Demo.collab.IsSlice .arrayInt = false ∧
    Demo.collab.AssignableTo (Demo.collab.TypeOf ⟨.int, 1⟩) .int = true ∧
    Demo.rt3.CallFunc Demo.collab "pair" true [⟨.int, 1⟩] = (.panic .funcOfVariadic, []) :=
  ⟨rfl, rfl, rfl, rfl, rfl, rfl⟩

/-- C7 (amended): for every reconstructed signature with `n >= 1` declared inputs whose
last declared input is a slice with element type `E` and for `variadic = true`, `CallFunc`
accepts every argument list with at least `n - 1` arguments whose arguments before index
`n - 1` are assignable to the declared input types at their indices and whose arguments
from index `n - 1` on, of any number, are each assignable to `E`: it returns no error,
performs the native call with the arguments as given and returns its outputs. -/
theorem CallFunc_variadic_accepts {T V D : Type} (C : Collab T V D) (d : DwarfRT)
    (name : String) (args : List V) (f : Function) (sig : ArgTypes T) (last E : T)
    (hlookup : d.FindFuncEntry name = .ok f) (hsig : d.getFunctionArgTypes C f = .ok sig)
    (hn : 1 ≤ sig.inTyps.len) (hlast : sig.inTyps.toList[sig.inTyps.len - 1]? = some last)
    (hslice : C.IsSlice last = true) (helem : C.Elem last = E)
    (hcount : sig.inTyps.len - 1 ≤ args.length)
    (hfixed : ∀ (k : Nat) (arg : V) (t : T), k < sig.inTyps.len - 1 → args[k]? = some arg →
      sig.inTyps.toList[k]? = some t → C.AssignableTo (C.TypeOf arg) t = true)
    (htrail : ∀ (k : Nat) (arg : V), sig.inTyps.len - 1 ≤ k → args[k]? = some arg →
      C.AssignableTo (C.TypeOf arg) E = true) :
    d.CallFunc C name true args =
      (.ok (C.Call (CreateFuncForCodePtr ⟨sig.inTyps.toList, sig.outTyps.toList, true⟩
          f.Entry) args),
        [(CreateFuncForCodePtr ⟨sig.inTyps.toList, sig.outTyps.toList, true⟩ f.Entry,
          args)]) := by
  have hfunc := FuncOf_variadic_slice C sig.inTyps sig.outTyps last hn hlast hslice
  rw [CallFunc_eq_validate C d name true args f sig _ hlookup hsig hfunc]
  have hnone : CallFunc.validate C sig.inTyps sig.inNames true 0 args = none := by
    apply (validate_none_iff C sig true args 0).2
    intro k arg hk
    rw [Nat.zero_add, argOk_iff]
    by_cases hlt : k < sig.inTyps.len - 1
    · have hk2 : k < sig.inTyps.toList.length := by
        have : sig.inTyps.toList.length = sig.inTyps.len := rfl
        omega
      refine ⟨sig.inTyps.toList[k], ?_, ?_⟩
      · rw [getInTyp_before_last C sig.inTyps sig.inNames true k hlt,
          List.getElem?_eq_getElem hk2]
      · exact hfixed k arg _ hlt hk (List.getElem?_eq_getElem hk2)
    · refine ⟨E, ?_, htrail k arg (by omega) hk⟩
      rw [getInTyp_variadic_tail C sig.inTyps sig.inNames k hn (by omega), hlast]
      simp [helem]
  rw [hnone]
  simp only
  rw [reflectCall_of_validated C sig true args _ f.Entry hfunc hnone (fun _ => hcount)
    (fun h => by cases h)]

/-- C7 (witness): `total(xs ...int) int` accepts three trailing `int` arguments and
the empty argument list. -/
theorem CallFunc_variadic_accepts_witness :
    Demo.rt.CallFunc Demo.collab "total" true [⟨.int, 1⟩, ⟨.int, 2⟩, ⟨.int, 3⟩] =
      (.ok [⟨.int, 6⟩],
        [(⟨⟨[.sliceInt], [.int], true⟩, 0x3000⟩, [⟨.int, 1⟩, ⟨.int, 2⟩, ⟨.int, 3⟩])]) ∧
    Demo.rt.CallFunc Demo.collab "total" true [] =
      (.ok [⟨.int, 0⟩], [(⟨⟨[.sliceInt], [.int], true⟩, 0x3000⟩, [])]) :=
  ⟨CallFunc_variadic_accepts Demo.collab Demo.rt "total" [⟨.int, 1⟩, ⟨.int, 2⟩, ⟨.int, 3⟩]
      (Demo.sym "total" 0x3000 300) ⟨.mk [.sliceInt], .mk [.int], .mk ["[]int"], .mk ["int"]⟩
      .sliceInt .int rfl rfl (by decide) rfl rfl rfl (by decide)
      (fun k arg t hk _ _ => absurd hk (Nat.not_lt_zero k))
      (fun k arg _ hk => by
        match k, hk with
        | 0, hk => simp at hk; subst hk; rfl
        | 1, hk => simp at hk; subst hk; rfl
        | 2, hk => simp at hk; subst hk; rfl
        | k + 3, hk => simp at hk),
   CallFunc_variadic_accepts Demo.collab Demo.rt "total" []
      (Demo.sym "total" 0x3000 300) ⟨.mk [.sliceInt], .mk [.int], .mk ["[]int"], .mk ["int"]⟩
      .sliceInt .int rfl rfl (by decide) rfl rfl rfl (by decide)
      (fun k arg t hk _ _ => absurd hk (Nat.not_lt_zero k))
      (fun k arg _ hk => by simp at hk)⟩

/-- C8: for a function whose offset holds a subprogram record with the function's name,
followed by a run of formal-parameter records and then by the end of the section or by
a record with another tag (the terminator included), when the type of every record of
the run resolves, `getFunctionArgTypes` succeeds; its input types are the resolved
types of exactly the records of the run without the return-slot marker, in encounter
order, and its output types those of the records of the run with the marker, in
encounter order.  The records after the run (`tail`) are arbitrary beyond the one that
stops it and contribute nothing. -/
theorem getFunctionArgTypes_classifies {T V D : Type} (C : Collab T V D) (d : DwarfRT)
    (f : Function) (off : Nat) (cu : CompileUnit) (image : Image) (dwarfData o : Nat)
    (sub : Entry) (run : List (Nat × Entry)) (tail : Reader)
    (hoff : f.offset = some off) (hcu : f.cu = some cu) (himg : cu.image = some image)
    (hdw : image.dwarf = some dwarfData)
    (hseek : image.Seek off = (o, .ok sub) :: (asRecords run ++ tail))
    (htag : sub.Tag = TagSubprogram) (hname : sub.Val AttrName = some (.str f.Name))
    (hrun : ∀ p ∈ run, p.2.Tag = TagFormalParameter) (htail : StopsRun tail)
    (hres : ∀ p ∈ run, (paramType C dwarfData p.2).isSome = true) :
    ∃ sig, d.getFunctionArgTypes C f = .ok sig ∧
      sig.inTyps.toList.map some =
        ((run.map (fun p => p.2)).filter (fun e => !isret e)).map (paramType C dwarfData) ∧
      sig.outTyps.toList.map some =
        ((run.map (fun p => p.2)).filter (fun e => isret e)).map (paramType C dwarfData) := by
  rw [getFunctionArgTypes_eq_loop C d f off cu image dwarfData o sub _ hoff hcu himg hdw
    hseek htag hname]
  obtain ⟨sig, hsig⟩ :=
    loop_succeeds C dwarfData f.Name tail htail run ⟨.nil, .nil, .nil, .nil⟩ hrun hres
  obtain ⟨h1, h2, _, _⟩ := loop_ok_inv C dwarfData f.Name _ _ sig hsig
  rw [paramRun_of_run run tail hrun htail] at h1 h2
  exact ⟨sig, hsig, h1, h2⟩

/-- C8 (witness): `sum(a int, b int) int` is reconstructed as the inputs `(int, int)` and
the output `(int)`; the records from its terminator on, which belong to other
functions, contribute nothing. -/
theorem getFunctionArgTypes_classifies_witness :
    ∃ sig, Demo.rt.getFunctionArgTypes Demo.collab (Demo.sym "sum" 0x1000 100) = .ok sig ∧
      sig.inTyps.toList.map some = [some .int, some .int] ∧
      sig.outTyps.toList.map some = [some .int] :=
  getFunctionArgTypes_classifies Demo.collab Demo.rt (Demo.sym "sum" 0x1000 100) 100
    ⟨some Demo.image⟩ Demo.image 0 100 ⟨100, TagSubprogram, [⟨AttrName, .str "sum"⟩]⟩
    [(110, ⟨110, TagFormalParameter,
        [⟨AttrName, .str "a"⟩, ⟨AttrVarParam, .bool false⟩, ⟨AttrType, .other 1⟩]⟩),
     (120, ⟨120, TagFormalParameter,
        [⟨AttrName, .str "b"⟩, ⟨AttrVarParam, .bool false⟩, ⟨AttrType, .other 1⟩]⟩),
     (130, ⟨130, TagFormalParameter,
        [⟨AttrName, .str "~r0"⟩, ⟨AttrVarParam, .bool true⟩, ⟨AttrType, .other 1⟩]⟩)]
    (Demo.image.records.drop 4) rfl rfl rfl rfl rfl rfl rfl
    (fun p hp => by
      simp only [List.mem_cons, List.mem_singleton, List.not_mem_nil, or_false] at hp
      rcases hp with h | h | h <;> (subst h; rfl))
    (Or.inr ⟨140, ⟨140, 0, []⟩, Demo.image.records.drop 5, rfl, by decide⟩)
    (fun p hp => by
      simp only [List.mem_cons, List.mem_singleton, List.not_mem_nil, or_false] at hp
      rcases hp with h | h | h <;> (subst h; rfl))

/-- C9 (the code at the failing input): `sum(a int, b int) int` has two declared inputs
and the call is not variadic; with the single argument `(3)` the validation loop runs
to its end without an error, so `CallFunc` returns no error at all, the arity error
included: it goes on to `newFunc.Call`, which panics on too few arguments, the target
unentered. -/
theorem CallFunc_too_few_arguments_no_arity_error :
    (Demo.rt.getFunctionArgTypes Demo.collab (Demo.sym "sum" 0x1000 100)).map
      (fun sig => sig.inTyps.len) = .ok 2 ∧
    CallFunc.validate Demo.collab Demo.sumSig.inTyps Demo.sumSig.inNames false 0
      [(⟨.int, 3⟩ : Demo.Val)] = none ∧
    Demo.rt.CallFunc Demo.collab "sum" false [⟨.int, 3⟩] = (.panic .callTooFew, []) ∧
    (∀ e, (Demo.rt.CallFunc Demo.collab "sum" false [⟨.int, 3⟩]).1 ≠ .error e) :=
  ⟨rfl, rfl, rfl, fun e h =>
    absurd (show (Result.panic Panic.callTooFew : Result (List Demo.Val)) = Result.error e
      from h) (by simp)⟩

/-- C10: with a usable provider, `ForeachFunc` returns no error and applies the visitor,
in storage order, once to each symbol whose entry address is nonzero and to no other:
for every visitor the final state is the visitor folded over the symbol list
filtered by `Entry != 0`, and the `(name, pc)` pairs the recording visitor receives
are exactly the filtered list, shadowed duplicates included. -/
theorem ForeachFunc_visits_nonzero_in_order (d : DwarfRT) (hcheck : d.check = none) :
    (∀ (σ : Type) (f : String → Nat → σ → σ) (s : σ),
      d.ForeachFunc f s =
        (none, (d.bi.Functions.filter (fun fn => fn.Entry != 0)).foldl
          (fun st fn => f fn.Name fn.Entry st) s)) ∧
    d.ForeachFunc (fun name pc log => log ++ [(name, pc)]) [] =
      (none, (d.bi.Functions.filter (fun fn => fn.Entry != 0)).map
        (fun fn => (fn.Name, fn.Entry))) := by
  have hgen : ∀ (σ : Type) (f : String → Nat → σ → σ) (s : σ),
      d.ForeachFunc f s =
        (none, (d.bi.Functions.filter (fun fn => fn.Entry != 0)).foldl
          (fun st fn => f fn.Name fn.Entry st) s) := by
    intro σ f s
    unfold DwarfRT.ForeachFunc
    rw [hcheck]
    simp only
    rw [foldl_skip_zero f d.bi.Functions s]
  refine ⟨hgen, ?_⟩
  rw [hgen, foldl_record]
  simp

/-- C10 (witness): on the list `[("a", 1), ("b", 0), ("a", 2)]` the visitor receives
`("a", 1)` and `("a", 2)`, in this order. -/
theorem ForeachFunc_visits_nonzero_in_order_witness :
    (Demo.rtOf [Demo.sym "a" 1 0, Demo.sym "b" 0 0, Demo.sym "a" 2 0]).ForeachFunc
      (fun name pc log => log ++ [(name, pc)]) [] = (none, [("a", 1), ("a", 2)]) :=
  (ForeachFunc_visits_nonzero_in_order
    (Demo.rtOf [Demo.sym "a" 1 0, Demo.sym "b" 0 0, Demo.sym "a" 2 0]) rfl).2

/-- C11: for every signature with `n >= 1` declared inputs and every index `i`, the
expected type `getInTyp` computes is the input type at `i` when `i < n - 1`, with or
without the variadic flag; the element type of the last declared input when
`i >= n - 1` and `variadic` is true; the input type at `i` when `variadic` is false and
`i = n - 1`; and no expected type when `variadic` is false and `i >= n`. -/
theorem getInTyp_expected_type {T V D : Type} (C : Collab T V D) (inTyps : Slice T)
    (inNames : Slice String) (i : Nat) (hn : 1 ≤ inTyps.len) :
    (∀ variadic, i < inTyps.len - 1 →
      ∃ t, inTyps.toList[i]? = some t ∧
        (getInTyp C inTyps inNames variadic i).1 = some t) ∧
    (inTyps.len - 1 ≤ i →
      ∃ last, inTyps.toList[inTyps.len - 1]? = some last ∧
        (getInTyp C inTyps inNames true i).1 = some (C.Elem last)) ∧
    (i = inTyps.len - 1 →
      ∃ t, inTyps.toList[i]? = some t ∧ (getInTyp C inTyps inNames false i).1 = some t) ∧
    (inTyps.len ≤ i → (getInTyp C inTyps inNames false i).1 = none) := by
  have hlen : inTyps.toList.length = inTyps.len := rfl
  refine ⟨?_, ?_, ?_, ?_⟩
  · intro variadic hi
    have hi2 : i < inTyps.toList.length := by omega
    refine ⟨inTyps.toList[i], List.getElem?_eq_getElem hi2, ?_⟩
    rw [getInTyp_before_last C inTyps inNames variadic i hi, List.getElem?_eq_getElem hi2]
  · intro hi
    have hl : inTyps.len - 1 < inTyps.toList.length := by omega
    refine ⟨inTyps.toList[inTyps.len - 1], List.getElem?_eq_getElem hl, ?_⟩
    rw [getInTyp_variadic_tail C inTyps inNames i hn hi, List.getElem?_eq_getElem hl]
    rfl
  · intro hi
    have hi2 : i < inTyps.toList.length := by omega
    refine ⟨inTyps.toList[i], List.getElem?_eq_getElem hi2, ?_⟩
    rw [getInTyp_in_range C inTyps inNames i (by omega), List.getElem?_eq_getElem hi2]
  · intro hi
    rw [getInTyp_out_of_range C inTyps inNames i hi]

/-- C11 (witness): for `total(xs ...int)` with the variadic flag every index from `0` on
expects `int`, the element type of `[]int`; here index `5`. -/
theorem getInTyp_expected_type_witness :
    ∃ last, ([Demo.Ty.sliceInt] : List Demo.Ty)[0]? = some last ∧
      (getInTyp Demo.collab (.mk [.sliceInt]) (.mk ["[]int"]) true 5).1
        = some (Demo.collab.Elem last) :=
  (getInTyp_expected_type Demo.collab (.mk [.sliceInt]) (.mk ["[]int"]) 5 (by decide)).2.1
    (by decide)

/-- C12: when the type of a formal-parameter record of the leading parameter run cannot
be extracted or resolved, `getFunctionArgTypes` returns the type error and four nil
lists, however many earlier parameters resolved; `FindFuncType`, `FindFunc` and
`CallFunc` return that error, and `CallFunc` performs no call. -/
theorem getFunctionArgTypes_unresolved_aborts {T V D : Type} (C : Collab T V D)
    (d : DwarfRT) (f : Function) (off : Nat) (cu : CompileUnit) (image : Image)
    (dwarfData o : Nat) (sub : Entry) (rest : Reader)
    (hoff : f.offset = some off) (hcu : f.cu = some cu) (himg : cu.image = some image)
    (hdw : image.dwarf = some dwarfData) (hseek : image.Seek off = (o, .ok sub) :: rest)
    (htag : sub.Tag = TagSubprogram) (hname : sub.Val AttrName = some (.str f.Name))
    (hbad : ∃ e ∈ paramRun rest, paramType C dwarfData e = none) :
    ∃ msg, d.getFunctionArgTypes C f = .error (.argTypesTypeErr f.Name msg) ∧
      returned (d.getFunctionArgTypes C f) =
        (⟨.nil, .nil, .nil, .nil⟩, some (.argTypesTypeErr f.Name msg)) ∧
      ∀ (name : String) (variadic : Bool) (args : List V), d.FindFuncEntry name = .ok f →
        d.FindFuncType C name variadic = .error (.argTypesTypeErr f.Name msg) ∧
        d.FindFunc C name variadic = .error (.argTypesTypeErr f.Name msg) ∧
        d.CallFunc C name variadic args = (.error (.argTypesTypeErr f.Name msg), []) := by
  obtain ⟨msg, hloop⟩ :=
    loop_fails_of_unresolved C dwarfData f.Name rest ⟨.nil, .nil, .nil, .nil⟩ hbad
  have herr : d.getFunctionArgTypes C f = .error (.argTypesTypeErr f.Name msg) := by
    rw [getFunctionArgTypes_eq_loop C d f off cu image dwarfData o sub rest hoff hcu himg hdw
      hseek htag hname]
    exact hloop
  refine ⟨msg, herr, by rw [herr]; rfl, ?_⟩
  intro name variadic args hlookup
  obtain ⟨hc, hf⟩ := (FindFuncEntry_ok_iff d name f).1 hlookup
  have hty : d.FindFuncType C name variadic = .error (.argTypesTypeErr f.Name msg) := by
    unfold DwarfRT.FindFuncType
    rw [hc]
    simp only [hf, herr]
  refine ⟨hty, ?_, ?_⟩
  · unfold DwarfRT.FindFunc
    rw [FindFuncPc_eq_findFunc d name hc, hf]
    simp only [Except.map, hty]
  · unfold DwarfRT.CallFunc
    rw [hc]
    simp only [hf, herr]

/-- C12 (witness): `bad(x int, y float64)`: the first parameter resolves, the type of the
second is unknown to the resolver; the reconstruction returns the error and nil lists,
and `CallFunc` returns the error without a call. -/
theorem getFunctionArgTypes_unresolved_aborts_witness :
    ∃ msg, Demo.rt2.getFunctionArgTypes Demo.collab (Demo.sym2 "bad" 0x5000 200)
        = .error (.argTypesTypeErr "bad" msg) ∧
      returned (Demo.rt2.getFunctionArgTypes Demo.collab (Demo.sym2 "bad" 0x5000 200)) =
        (⟨.nil, .nil, .nil, .nil⟩, some (.argTypesTypeErr "bad" msg)) ∧
      ∀ (name : String) (variadic : Bool) (args : List Demo.Val),
        Demo.rt2.FindFuncEntry name = .ok (Demo.sym2 "bad" 0x5000 200) →
        Demo.rt2.FindFuncType Demo.collab name variadic = .error (.argTypesTypeErr "bad" msg) ∧
        Demo.rt2.FindFunc Demo.collab name variadic = .error (.argTypesTypeErr "bad" msg) ∧
        Demo.rt2.CallFunc Demo.collab name variadic args
          = (.error (.argTypesTypeErr "bad" msg), []) :=
  getFunctionArgTypes_unresolved_aborts Demo.collab Demo.rt2 (Demo.sym2 "bad" 0x5000 200) 200
    ⟨some Demo.image2⟩ Demo.image2 0 200 ⟨200, TagSubprogram, [⟨AttrName, .str "bad"⟩]⟩
    (Demo.image2.records.drop 3) rfl rfl rfl rfl rfl rfl rfl
    ⟨⟨220, TagFormalParameter,
        [⟨AttrName, .str "y"⟩, ⟨AttrVarParam, .bool false⟩, ⟨AttrType, .other 4⟩]⟩,
      List.mem_cons_of_mem _ (List.mem_cons_self _ _), rfl⟩

/-- C13 (counterexample): the subprogram record of `nop()` is followed by its terminator,
so by zero formal-parameter records; `getFunctionArgTypes` returns no error and empty
lists, but the input and output type lists are the nil slices, not non-nil ones. -/
theorem C13_counterexample_nil_lists :
    Demo.image2.Seek 100 = Demo.subprogram 100 "nop" :: Demo.image2.records.drop 1 ∧
    paramRun (Demo.image2.records.drop 1) = [] ∧
    (returned (Demo.rt2.getFunctionArgTypes Demo.collab (Demo.sym2 "nop" 0x4000 100))).2
      = none ∧
    (returned (Demo.rt2.getFunctionArgTypes Demo.collab
      (Demo.sym2 "nop" 0x4000 100))).1.inTyps.len = 0 ∧
    (returned (Demo.rt2.getFunctionArgTypes Demo.collab
      (Demo.sym2 "nop" 0x4000 100))).1.outTyps.len = 0 ∧
    (returned (Demo.rt2.getFunctionArgTypes Demo.collab
      (Demo.sym2 "nop" 0x4000 100))).1.inTyps.isNil = true ∧
    (returned (Demo.rt2.getFunctionArgTypes Demo.collab
      (Demo.sym2 "nop" 0x4000 100))).1.outTyps.isNil = true :=
  ⟨rfl, rfl, rfl, rfl, rfl, rfl, rfl⟩

/-- C13 (amended): for every function whose subprogram record is followed by zero
formal-parameter records (by the end of the section or by a record with another tag),
`getFunctionArgTypes` returns no error and input and output type lists that are
empty; all four lists are the nil slices. -/
theorem getFunctionArgTypes_no_parameters {T V D : Type} (C : Collab T V D) (d : DwarfRT)
    (f : Function) (off : Nat) (cu : CompileUnit) (image : Image) (dwarfData o : Nat)
    (sub : Entry) (rest : Reader)
    (hoff : f.offset = some off) (hcu : f.cu = some cu) (himg : cu.image = some image)
    (hdw : image.dwarf = some dwarfData) (hseek : image.Seek off = (o, .ok sub) :: rest)
    (htag : sub.Tag = TagSubprogram) (hname : sub.Val AttrName = some (.str f.Name))
    (hzero : StopsRun rest) :
    d.getFunctionArgTypes C f = .ok ⟨.nil, .nil, .nil, .nil⟩ ∧
    returned (d.getFunctionArgTypes C f) = (⟨.nil, .nil, .nil, .nil⟩, none) ∧
    ∀ sig, d.getFunctionArgTypes C f = .ok sig →
      sig.inTyps.len = 0 ∧ sig.outTyps.len = 0 ∧
      sig.inTyps.isNil = true ∧ sig.outTyps.isNil = true := by
  have hok : d.getFunctionArgTypes C f = .ok ⟨.nil, .nil, .nil, .nil⟩ := by
    rw [getFunctionArgTypes_eq_loop C d f off cu image dwarfData o sub rest hoff hcu himg hdw
      hseek htag hname]
    rcases hzero with h | ⟨o2, stop, tail2, h, hstop⟩
    · subst h; rfl
    · subst h
      simp only [getFunctionArgTypes.loop]
      by_cases h0 : stop.Tag = 0
      · rw [if_pos h0]
      · rw [if_neg h0, if_pos hstop]
  refine ⟨hok, by rw [hok]; rfl, ?_⟩
  intro sig hsig
  rw [hok] at hsig
  cases hsig
  exact ⟨rfl, rfl, rfl, rfl⟩

/-- C13 (witness): `nop()` is reconstructed without error as four nil lists. -/
theorem getFunctionArgTypes_no_parameters_witness :
    Demo.rt2.getFunctionArgTypes Demo.collab (Demo.sym2 "nop" 0x4000 100)
      = .ok ⟨.nil, .nil, .nil, .nil⟩ :=
  (getFunctionArgTypes_no_parameters Demo.collab Demo.rt2 (Demo.sym2 "nop" 0x4000 100) 100
    ⟨some Demo.image2⟩ Demo.image2 0 100 ⟨100, TagSubprogram, [⟨AttrName, .str "nop"⟩]⟩
    (Demo.image2.records.drop 1) rfl rfl rfl rfl rfl rfl rfl
    (Or.inr ⟨110, ⟨110, 0, []⟩, Demo.image2.records.drop 2, rfl, by decide⟩)).1

/-- C14: on every success of `getFunctionArgTypes` the returned lists satisfy
`len(inNames) = len(inTyps)` and `len(outNames) = len(outTyps)`; the equalities also hold
after every iteration of the parameter loop: the lists after `k` iterations are those
the loop returns on the first `k` records of any reader (see `loop_append`), and they
satisfy both equalities for every `k`. -/
theorem getFunctionArgTypes_names_match_types {T V D : Type} (C : Collab T V D)
    (d : DwarfRT) (f : Function) (sig : ArgTypes T)
    (hsig : d.getFunctionArgTypes C f = .ok sig) :
    (sig.inNames.len = sig.inTyps.len ∧ sig.outNames.len = sig.outTyps.len) ∧
    ∀ (dwarfData : Nat) (reader : Reader) (k : Nat) (mid : ArgTypes T),
      getFunctionArgTypes.loop C dwarfData f.Name (reader.take k) ⟨.nil, .nil, .nil, .nil⟩
        = .ok mid →
      mid.inNames.len = mid.inTyps.len ∧ mid.outNames.len = mid.outTyps.len := by
  have hinit : Balanced (⟨.nil, .nil, .nil, .nil⟩ : ArgTypes T) := ⟨rfl, rfl⟩
  constructor
  · obtain ⟨dwarfData, reader, hloop⟩ := getFunctionArgTypes_ok_loop C d f sig hsig
    exact loop_balanced C dwarfData f.Name reader _ sig hinit hloop
  · intro dwarfData reader k mid hmid
    exact loop_balanced C dwarfData f.Name (reader.take k) _ mid hinit hmid

/-- C14 (witness): for `sum(a int, b int) int` both name lists have the lengths of the
type lists, `2` and `1`. -/
theorem getFunctionArgTypes_names_match_types_witness :
    Demo.sumSig.inNames.len = Demo.sumSig.inTyps.len ∧
    Demo.sumSig.outNames.len = Demo.sumSig.outTyps.len :=
  (getFunctionArgTypes_names_match_types Demo.collab Demo.rt (Demo.sym "sum" 0x1000 100)
    Demo.sumSig rfl).1

/-- C15: when the provider check fails, every public operation returns the check's
error and nothing else happens: `ForeachFunc` leaves the visitor's state untouched (the
visitor is not called), `CallFunc` performs no call, and the result is the same
whatever the symbol table, the debug records and the collaborators are (no symbol is
looked up, no signature is reconstructed). -/
theorem check_failure_returned_first {T V D : Type} (C : Collab T V D) (d : DwarfRT)
    (err : Error) (hcheck : d.check = some err) :
    (∀ (σ : Type) (f : String → Nat → σ → σ) (s : σ), d.ForeachFunc f s = (some err, s)) ∧
    (∀ name, d.FindFuncEntry name = .error err) ∧
    (∀ name, d.FindFuncPc name = .error err) ∧
    (∀ name variadic, d.FindFuncType C name variadic = .error err) ∧
    (∀ name variadic, d.FindFunc C name variadic = .error err) ∧
    (∀ name variadic (args : List V), d.CallFunc C name variadic args = (.error err, [])) := by
  have hpc : ∀ name, d.FindFuncPc name = .error err := by
    intro name
    unfold DwarfRT.FindFuncPc
    rw [hcheck]
  refine ⟨?_, ?_, hpc, ?_, ?_, ?_⟩
  · intro σ f s
    unfold DwarfRT.ForeachFunc
    rw [hcheck]
  · intro name
    unfold DwarfRT.FindFuncEntry
    rw [hcheck]
  · intro name variadic
    unfold DwarfRT.FindFuncType
    rw [hcheck]
  · intro name variadic
    unfold DwarfRT.FindFunc
    rw [hpc name]
  · intro name variadic args
    unfold DwarfRT.CallFunc
    rw [hcheck]

/-- C15 (witness): on a provider whose check fails, `CallFunc` of a registered symbol
returns the check's error without a call, and `ForeachFunc` records no visit. -/
theorem check_failure_returned_first_witness :
    Demo.rtDown.CallFunc Demo.collab "sum" false [⟨.int, 3⟩, ⟨.int, 4⟩]
      = (.error (.checkFailed "not init"), []) ∧
    Demo.rtDown.ForeachFunc (fun name pc log => log ++ [(name, pc)]) []
      = (some (.checkFailed "not init"), []) :=
  ⟨(check_failure_returned_first Demo.collab Demo.rtDown (.checkFailed "not init") rfl).2.2.2.2.2
      "sum" false [⟨.int, 3⟩, ⟨.int, 4⟩],
   (check_failure_returned_first Demo.collab Demo.rtDown (.checkFailed "not init") rfl).1
      (List (String × Nat)) (fun name pc log => log ++ [(name, pc)]) []⟩

/-- C16: when the record read at the function's offset is absent (the read fails or
yields no record), is not tagged as a subprogram, has no string name attribute, or has
a name different from the function's, `getFunctionArgTypes` fails and returns four nil
lists; the error is made of the function's name and that record alone, and the result
is the same for every collaborator and for every section with the same record at the
offset: no child record and no resolver takes part in it. -/
theorem getFunctionArgTypes_rejects_bad_head {T V D : Type} (C : Collab T V D) (d : DwarfRT)
    (f : Function) (off : Nat) (cu : CompileUnit) (image : Image) (dwarfData : Nat)
    (hoff : f.offset = some off) (hcu : f.cu = some cu) (himg : cu.image = some image)
    (hdw : image.dwarf = some dwarfData)
    (hbad : BadHead f (Reader.Next (image.Seek off)).1) :
    (∃ err, d.getFunctionArgTypes C f = .error err ∧
      returned (d.getFunctionArgTypes C f) = (⟨.nil, .nil, .nil, .nil⟩, some err) ∧
      (err = .argTypesNotFound f.Name ∨ ∃ name, err = .argTypesNameErr f.Name name)) ∧
    (∀ (C2 : Collab T V D) (image2 : Image) (off2 dwarfData2 : Nat),
      image2.dwarf = some dwarfData2 →
      (Reader.Next (image2.Seek off2)).1 = (Reader.Next (image.Seek off)).1 →
      d.getFunctionArgTypes C2 ⟨f.Name, f.Entry, some off2, some ⟨some image2⟩⟩ =
        d.getFunctionArgTypes C f) := by
  have herr := getFunctionArgTypes_bad_head C d f off cu image dwarfData hoff hcu himg hdw hbad
  constructor
  · refine ⟨_, herr, by rw [herr]; rfl, ?_⟩
    rcases hhead : (Reader.Next (image.Seek off)).1 with msg | oe
    · left; rfl
    · cases oe with
      | none => left; rfl
      | some entry =>
        simp only [headError]
        by_cases htag : entry.Tag = TagSubprogram
        · rw [if_neg (not_not.mpr htag)]
          right
          cases hval : entry.Val AttrName with
          | none => exact ⟨"", rfl⟩
          | some v =>
            cases v with
            | str name => exact ⟨name, rfl⟩
            | bool b => exact ⟨"", rfl⟩
            | other n => exact ⟨"", rfl⟩
        · rw [if_pos htag]; left; trivial
  · intro C2 image2 off2 dwarfData2 hdw2 hsame
    have hbad2 : BadHead ⟨f.Name, f.Entry, some off2, some ⟨some image2⟩⟩
        (Reader.Next (image2.Seek off2)).1 := by
      rw [hsame]
      exact hbad
    rw [getFunctionArgTypes_bad_head C2 d ⟨f.Name, f.Entry, some off2, some ⟨some image2⟩⟩ off2
      ⟨some image2⟩ image2 dwarfData2 rfl rfl rfl hdw2 hbad2, herr, hsame]
    rfl

/-- C16 (witness): a symbol `nop` whose offset `200` holds the subprogram record of `bad`
fails with the name error, and returns nil lists. -/
theorem getFunctionArgTypes_rejects_bad_head_witness :
    ∃ err, Demo.rt2.getFunctionArgTypes Demo.collab (Demo.sym2 "nop" 0x4000 200) = .error err ∧
      returned (Demo.rt2.getFunctionArgTypes Demo.collab (Demo.sym2 "nop" 0x4000 200)) =
        (⟨.nil, .nil, .nil, .nil⟩, some err) ∧
      (err = .argTypesNotFound "nop" ∨ ∃ name, err = .argTypesNameErr "nop" name) :=
  (getFunctionArgTypes_rejects_bad_head Demo.collab Demo.rt2 (Demo.sym2 "nop" 0x4000 200) 200
    ⟨some Demo.image2⟩ Demo.image2 0 rfl rfl rfl rfl
    (Or.inr (Or.inr ⟨"bad", rfl, by decide⟩))).1

/-- C17: with a usable provider, `ForeachFunc` enumerates all resolvable symbols: for
every name for which `FindFuncPc(name)` succeeds with address `pc`, the visitor is
called with the pair `(name, pc)`, and `ForeachFunc` returns no error. -/
theorem ForeachFunc_visits_resolvable (d : DwarfRT) (name : String) (pc : Nat)
    (hcheck : d.check = none) (hpc : d.FindFuncPc name = .ok pc) :
    (name, pc) ∈ (d.ForeachFunc (fun name pc log => log ++ [(name, pc)]) []).2 ∧
    (d.ForeachFunc (fun name pc log => log ++ [(name, pc)]) []).1 = none := by
  rw [ForeachFunc_record_eq d hcheck]
  refine ⟨?_, rfl⟩
  rw [FindFuncPc_eq_findFunc d name hcheck] at hpc
  cases hf : d.findFunc name with
  | error e => rw [hf] at hpc; cases hpc
  | ok fn =>
    rw [hf] at hpc
    cases hpc
    obtain ⟨hmem, hname, hentry⟩ := findFunc_ok_mem d name fn hf
    simp only [List.mem_map, List.mem_filter]
    refine ⟨fn, ⟨hmem, by simpa using hentry⟩, ?_⟩
    rw [hname]

/-- C17 (witness): `show` resolves to `0x2000` and the visitor receives `("show", 0x2000)`. -/
theorem ForeachFunc_visits_resolvable_witness :
    ("show", 0x2000) ∈ (Demo.rt.ForeachFunc (fun name pc log => log ++ [(name, pc)]) []).2 ∧
    (Demo.rt.ForeachFunc (fun name pc log => log ++ [(name, pc)]) []).1 = none :=
  ForeachFunc_visits_resolvable Demo.rt "show" 0x2000 rfl rfl

/-- C18: whenever `CallFunc` fails after a successful lookup and reconstruction, its
error is that of the smallest index `i` whose argument does not pass validation: every
argument before `i` has an expected type to which it is assignable, and the error is
the arity error with index `i` when no expected type exists for `i`, else the
type-mismatch error with index `i`; the arguments after `i` are not examined: every
argument list with the same first `i + 1` arguments fails with the same error. -/
theorem CallFunc_reports_first_failure {T V D : Type} (C : Collab T V D) (d : DwarfRT)
    (name : String) (variadic : Bool) (args : List V) (f : Function) (sig : ArgTypes T)
    (e : Error) (hlookup : d.FindFuncEntry name = .ok f)
    (hsig : d.getFunctionArgTypes C f = .ok sig)
    (hfail : (d.CallFunc C name variadic args).1 = .error e) :
    ∃ i arg, args[i]? = some arg ∧
      (∀ (m : Nat) (a : V), m < i → args[m]? = some a →
        ∃ t, (getInTyp C sig.inTyps sig.inNames variadic m).1 = some t ∧
          C.AssignableTo (C.TypeOf a) t = true) ∧
      (((getInTyp C sig.inTyps sig.inNames variadic i).1 = none ∧ e = .lenMismatch i) ∨
        ∃ t, (getInTyp C sig.inTyps sig.inNames variadic i).1 = some t ∧
          C.AssignableTo (C.TypeOf arg) t = false ∧
          e = .typeMismatch i (getInTyp C sig.inTyps sig.inNames variadic i).2) ∧
      ∀ later : List V,
        d.CallFunc C name variadic (args.take (i + 1) ++ later) = (.error e, []) := by
  cases hfunc : FuncOf C sig.inTyps sig.outTyps variadic with
  | error p =>
    rw [CallFunc_of_FuncOf_panic C d name variadic args f sig p hlookup hsig hfunc] at hfail
    cases hfail
  | ok ftyp =>
  rw [CallFunc_eq_validate C d name variadic args f sig ftyp hlookup hsig hfunc] at hfail
  cases hv : CallFunc.validate C sig.inTyps sig.inNames variadic 0 args with
  | none =>
    rw [hv] at hfail
    simp only at hfail
    cases hrc : reflectCall C (CreateFuncForCodePtr ftyp f.Entry) args with
    | error p => rw [hrc] at hfail; cases hfail
    | ok out => rw [hrc] at hfail; cases hfail
  | some e2 =>
    rw [hv] at hfail
    simp only at hfail
    cases hfail
    obtain ⟨i, arg, hi, hpre, hbad, he⟩ := validate_some_inv C sig variadic args 0 e hv
    simp only [Nat.zero_add] at hpre hbad he
    refine ⟨i, arg, hi, ?_, ?_, ?_⟩
    · intro m a hm hma
      exact (argOk_iff C sig variadic m a).1 (hpre m a hm hma)
    · cases ht : (getInTyp C sig.inTyps sig.inNames variadic i).1 with
      | none =>
        left
        refine ⟨rfl, ?_⟩
        rw [he]
        unfold argErr
        rcases hg : getInTyp C sig.inTyps sig.inNames variadic i with ⟨t2, nm⟩
        rw [hg] at ht
        simp only at ht
        subst ht
        rfl
      | some t =>
        right
        refine ⟨t, rfl, ?_, ?_⟩
        · unfold argOk at hbad
          rw [ht] at hbad
          exact hbad
        · rw [he]
          exact argErr_of_expected C sig variadic i t ht
    · intro later
      rw [CallFunc_eq_validate C d name variadic _ f sig ftyp hlookup hsig hfunc,
        validate_ignores_later C sig variadic args i arg hpre hi hbad later, he]

/-- C18 (witness): `sum(a int, b int) int` called with `(int, string, string)` fails with
the error of index `1`, the smallest index that does not pass. -/
theorem CallFunc_reports_first_failure_witness :
    ∃ i arg, ([⟨.int, 3⟩, ⟨.string, 0⟩, ⟨.string, 0⟩] : List Demo.Val)[i]? = some arg ∧
      (∀ (m : Nat) (a : Demo.Val), m < i →
        ([⟨.int, 3⟩, ⟨.string, 0⟩, ⟨.string, 0⟩] : List Demo.Val)[m]? = some a →
        ∃ t, (getInTyp Demo.collab Demo.sumSig.inTyps Demo.sumSig.inNames false m).1 = some t ∧
          Demo.collab.AssignableTo (Demo.collab.TypeOf a) t = true) ∧
      (((getInTyp Demo.collab Demo.sumSig.inTyps Demo.sumSig.inNames false i).1 = none ∧
          Error.typeMismatch 1 "int" = .lenMismatch i) ∨
        ∃ t, (getInTyp Demo.collab Demo.sumSig.inTyps Demo.sumSig.inNames false i).1 = some t ∧
          Demo.collab.AssignableTo (Demo.collab.TypeOf arg) t = false ∧
          Error.typeMismatch 1 "int" = .typeMismatch i
            (getInTyp Demo.collab Demo.sumSig.inTyps Demo.sumSig.inNames false i).2) ∧
      ∀ later : List Demo.Val,
        Demo.rt.CallFunc Demo.collab "sum" false
          (([⟨.int, 3⟩, ⟨.string, 0⟩, ⟨.string, 0⟩] : List Demo.Val).take (i + 1) ++ later)
          = (.error (.typeMismatch 1 "int"), []) :=
  CallFunc_reports_first_failure Demo.collab Demo.rt "sum" false
    [⟨.int, 3⟩, ⟨.string, 0⟩, ⟨.string, 0⟩] (Demo.sym "sum" 0x1000 100) Demo.sumSig
    (.typeMismatch 1 "int") rfl rfl rfl

/-- C19 (counterexample): `nop()` has zero declared inputs; with `variadic = true` and the
single argument `(1)` `CallFunc` does not fail with the arity error at index `0`, and
with the empty argument list it does not get through validation to the call: in both
cases `reflect.FuncOf` panics before the validation loop, there being no last input. -/
theorem C19_counterexample_variadic_no_inputs :
    Demo.rt2.FindFuncEntry "nop" = .ok (Demo.sym2 "nop" 0x4000 100) ∧
    (Demo.rt2.getFunctionArgTypes Demo.collab (Demo.sym2 "nop" 0x4000 100)).map
      (fun sig => sig.inTyps.len) = .ok 0 ∧
    Demo.rt2.CallFunc Demo.collab "nop" true [⟨.int, 1⟩] = (.panic .funcOfVariadic, []) ∧
    (Demo.rt2.CallFunc Demo.collab "nop" true [⟨.int, 1⟩]).1 ≠ .error (.lenMismatch 0) ∧
    Demo.rt2.CallFunc Demo.collab "nop" true [] = (.panic .funcOfVariadic, []) :=
  ⟨rfl, rfl, rfl, fun h =>
    absurd (show (Result.panic Panic.funcOfVariadic : Result (List Demo.Val))
      = Result.error (Error.lenMismatch 0) from h) (by simp), rfl⟩

/-- C19 (amended): for every reconstructed signature with zero declared inputs, `getInTyp`
yields no expected type for every index, with or without the variadic flag, and the
validation loop runs to its end on the empty argument list only; with `variadic = false`,
`CallFunc` with any non-empty argument list fails with the arity error at index `0` and
performs no call, and with the empty argument list it passes validation and the call
is performed. -/
theorem CallFunc_no_inputs {T V D : Type} (C : Collab T V D) (d : DwarfRT) (name : String)
    (f : Function) (sig : ArgTypes T) (hlookup : d.FindFuncEntry name = .ok f)
    (hsig : d.getFunctionArgTypes C f = .ok sig) (hzero : sig.inTyps.len = 0) :
    (∀ (variadic : Bool) (i : Nat),
      getInTyp C sig.inTyps sig.inNames variadic i = (none, "")) ∧
    (∀ (arg : V) (args : List V),
      d.CallFunc C name false (arg :: args) = (.error (.lenMismatch 0), [])) ∧
    (∀ (variadic : Bool) (args : List V),
      CallFunc.validate C sig.inTyps sig.inNames variadic 0 args = none ↔ args = []) ∧
    d.CallFunc C name false [] =
      (.ok (C.Call (CreateFuncForCodePtr ⟨sig.inTyps.toList, sig.outTyps.toList, false⟩
          f.Entry) []),
        [(CreateFuncForCodePtr ⟨sig.inTyps.toList, sig.outTyps.toList, false⟩ f.Entry,
          [])]) := by
  have hget : ∀ (variadic : Bool) (i : Nat),
      getInTyp C sig.inTyps sig.inNames variadic i = (none, "") := by
    intro variadic i
    unfold getInTyp
    rw [if_pos (by omega)]
  have hcons : ∀ (variadic : Bool) (arg : V) (args : List V),
      CallFunc.validate C sig.inTyps sig.inNames variadic 0 (arg :: args) =
        some (.lenMismatch 0) := by
    intro variadic arg args
    simp only [CallFunc.validate, hget]
  have hfunc := FuncOf_nonvariadic C sig.inTyps sig.outTyps
  refine ⟨hget, ?_, ?_, ?_⟩
  · intro arg args
    rw [CallFunc_eq_validate C d name false _ f sig _ hlookup hsig hfunc, hcons]
  · intro variadic args
    cases args with
    | nil => simp [CallFunc.validate]
    | cons arg args => simp [hcons]
  · have hnone : CallFunc.validate C sig.inTyps sig.inNames false 0 ([] : List V) = none :=
      rfl
    rw [CallFunc_eq_validate C d name false _ f sig _ hlookup hsig hfunc, hnone]
    simp only
    rw [reflectCall_of_validated C sig false [] _ f.Entry hfunc hnone (fun h => by cases h)
      (fun _ => by rw [hzero]; rfl)]

/-- C19 (witness): `nop()` called without the variadic flag fails with the arity error at
index `0` on one argument and is called on the empty argument list. -/
theorem CallFunc_no_inputs_witness :
    Demo.rt2.CallFunc Demo.collab "nop" false [⟨.int, 1⟩] = (.error (.lenMismatch 0), []) ∧
    Demo.rt2.CallFunc Demo.collab "nop" false [] =
      (.ok [⟨.int, 0⟩], [(⟨⟨[], [], false⟩, 0x4000⟩, [])]) :=
  ⟨(CallFunc_no_inputs Demo.collab Demo.rt2 "nop" (Demo.sym2 "nop" 0x4000 100)
      ⟨.nil, .nil, .nil, .nil⟩ rfl rfl rfl).2.1 ⟨.int, 1⟩ [],
   (CallFunc_no_inputs Demo.collab Demo.rt2 "nop" (Demo.sym2 "nop" 0x4000 100)
      ⟨.nil, .nil, .nil, .nil⟩ rfl rfl rfl).2.2.2⟩

end Gort
